import Mathlib

/-!
Verification of the Storage Lifecycle & Bulk Operations Engine of the
glacierarchival repository, as a shallow embedding of the Python backend
(backend/api/services.py, backend/api/views/file_views.py,
backend/api/tasks.py, backend/api/upload_error_handling.py,
backend/api/constants.py, backend/api/views/cache_utils.py) into Lean.

Statuses and job states are represented by the exact string literals used in
the source.  Time is modelled in tenths of hours (so the Expedited restore
estimate of 0.1 hours is the natural number 1).  The external object-storage
and archival-tier collaborators are modelled by explicit outcome parameters,
since the engine only observes whether their calls succeed or fail.
-/

namespace GlacierArchival

/-- A File Record row of the File Registry (model MediaFile in
backend/api/models.py).  Only the fields the lifecycle engine reads or
writes are carried. -/
structure MediaFile where
  id : Nat
  userId : Nat
  filename : String
  originalFilename : String
  fileSize : Nat
  fileType : String
  s3Key : Option String
  status : String
  checksum : String
  glacierArchiveId : Option String
  restoreTier : String
  isDeleted : Bool
  deletedAt : Option Nat
  relativePath : Option String
  archivedAt : Option Nat
  deriving Repr, DecidableEq

/-- A Lifecycle Job row (model ArchiveJob in backend/api/models.py). -/
structure ArchiveJob where
  id : Nat
  userId : Nat
  fileId : Nat
  jobType : String
  jobStatus : String
  progress : Nat
  errorMessage : Option String
  estimatedCompletion : Option Nat
  completedAt : Option Nat
  deriving Repr, DecidableEq

/-- The declared media-file status choices, MEDIA_FILE_STATUS_CHOICES in
backend/api/constants.py lines 15-22 (first components; the second component
of each pair is only a display label). -/
def mediaFileStatusChoices : List String :=
  ["uploaded", "archiving", "archived", "restoring", "restored", "failed"]

/-- The engine state: the File Registry, the job table, id counters, the
per-user cache version store, the per-user files-in-flight counters, and the
current wall-clock time (in tenths of hours). -/
structure EngineState where
  files : List MediaFile
  jobs : List ArchiveJob
  nextFileId : Nat
  nextJobId : Nat
  cacheVersions : List (Nat × Nat)
  inFlight : List (Nat × Nat)
  now : Nat
  deriving Repr, DecidableEq

/-- Read a per-user counter from an association list, defaulting to 0
(model cache.get(key, 0)). -/
def getCount (m : List (Nat × Nat)) (k : Nat) : Nat :=
  match m.find? (fun p => p.1 = k) with
  | some p => p.2
  | none => 0

/-- Write a per-user counter in an association list (model cache.set). -/
def setCount (m : List (Nat × Nat)) (k v : Nat) : List (Nat × Nat) :=
  if m.any (fun p => p.1 = k) then
    m.map (fun p => if p.1 = k then (k, v) else p)
  else
    m ++ [(k, v)]

/-- One cache-invalidation bump for a user: read the current version
(default 0) and store its successor (model invalidate_user_cache in
backend/api/views/cache_utils.py and backend/api/utils.py, whose net effect
on the version counter is a single increment). -/
def bumpUserCache (st : EngineState) (uid : Nat) : EngineState :=
  { st with cacheVersions :=
      setCount st.cacheVersions uid (getCount st.cacheVersions uid + 1) }

/-- The cache version currently visible for a user. -/
def cacheVersionOf (st : EngineState) (uid : Nat) : Nat :=
  getCount st.cacheVersions uid

/-- Look a file up by id in the registry. -/
def findFile (fs : List MediaFile) (fid : Nat) : Option MediaFile :=
  fs.find? (fun m => m.id = fid)

/-- Look a job up by id. -/
def findJob (js : List ArchiveJob) (jid : Nat) : Option ArchiveJob :=
  js.find? (fun j => j.id = jid)

/-- Apply an update to the file with a given id (model a Django save of a
single row). -/
def mapAtId (fs : List MediaFile) (fid : Nat) (g : MediaFile → MediaFile) :
    List MediaFile :=
  fs.map (fun m => if m.id = fid then g m else m)

/-- Apply an update to the job with a given id. -/
def mapJobAtId (js : List ArchiveJob) (jid : Nat) (g : ArchiveJob → ArchiveJob) :
    List ArchiveJob :=
  js.map (fun j => if j.id = jid then g j else j)

/-- The status of the file with a given id, if present. -/
def statusOf (st : EngineState) (fid : Nat) : Option String :=
  (findFile st.files fid).map (fun m => m.status)

/-- The soft-delete flag of the file with a given id, if present. -/
def deletedFlagOf (st : EngineState) (fid : Nat) : Option Bool :=
  (findFile st.files fid).map (fun m => m.isDeleted)

/-- The status of the job with a given id, if present. -/
def jobStatusOf (st : EngineState) (jid : Nat) : Option String :=
  (findJob st.jobs jid).map (fun j => j.jobStatus)

/-- Well-formedness of an engine state: file ids and job ids are unique and
the id counters are fresh. -/
def WFState (st : EngineState) : Prop :=
  (st.files.map (fun m => m.id)).Nodup ∧
  (st.jobs.map (fun j => j.id)).Nodup ∧
  (∀ j ∈ st.jobs, j.id < st.nextJobId) ∧
  (∀ m ∈ st.files, m.id < st.nextFileId)

instance (st : EngineState) : Decidable (WFState st) := by
  unfold WFState
  infer_instance

/-- A subscribed hibernation plan as the archive and restore gates read it:
the stored usage counter and the plan byte ceiling
(model UserHibernationPlan together with
HibernationPlanService.check_storage_limit in backend/api/services.py). -/
structure UserPlan where
  storageUsedBytes : Nat
  storageLimitBytes : Nat
  deriving Repr, DecidableEq

/-- Outcomes of the object-storage collaborator calls made by the archive
algorithm: whether the copy to the archival destination and the delete of
the warm copy succeed. -/
structure S3ArchiveEnv where
  copyOk : Bool
  deleteOk : Bool
  deriving Repr, DecidableEq

/-- The characters after the last slash of a character list. -/
def basenameChars : List Char → List Char → List Char
  | [], acc => acc.reverse
  | c :: rest, acc =>
    if c = '/' then basenameChars rest [] else basenameChars rest (c :: acc)

/-- The basename of a slash-separated key (model os.path.basename as used in
MediaFileService.archive_file). -/
def basenameOf (s : String) : String :=
  String.mk (basenameChars s.toList [])

/-- Mark a job failed and record the causing error
(model the except branch of MediaFileService.archive_file). -/
def markJobFailed (st : EngineState) (jid : Nat) (msg : String) : EngineState :=
  { st with jobs := (mapJobAtId st.jobs jid
      (fun j => { j with jobStatus := "failed", errorMessage := some msg })) }

/-- The archive destination file name of MediaFileService.archive_file:
basename of the current key, else filename, else original filename (Python
or-chains on possibly empty strings). -/
def archiveCandidateName (mf : MediaFile) : String :=
  if basenameOf (mf.s3Key.getD "") ≠ "" then basenameOf (mf.s3Key.getD "")
  else if mf.filename ≠ "" then mf.filename
  else mf.originalFilename

/-- The body of MediaFileService.archive_file after the status, plan and
quota gates: create the in-progress job, then copy to the archive key,
delete the warm copy and update file and job, marking the job failed with
the causing error if any step raises. -/
def archiveFileGo (p : UserPlan) (env : S3ArchiveEnv) (username : String)
    (st : EngineState) (mf : MediaFile) : EngineState × Option String :=
  if ¬ (p.storageUsedBytes + mf.fileSize ≤ p.storageLimitBytes) then
    (st, some "Storage limit exceeded")
  else
    let jid := st.nextJobId
    let job : ArchiveJob :=
      { id := jid, userId := mf.userId, fileId := mf.id,
        jobType := "archive", jobStatus := "in_progress", progress := 0,
        errorMessage := none, estimatedCompletion := none,
        completedAt := none }
    let st1 : EngineState :=
      { st with jobs := st.jobs ++ [job], nextJobId := jid + 1 }
    if archiveCandidateName mf = "" then
      (markJobFailed st1 jid "Cannot determine archive file name",
       some "Cannot determine archive file name")
    else
      if ¬ env.copyOk then
        (markJobFailed st1 jid "S3 copy failed", some "S3 copy failed")
      else if ¬ env.deleteOk then
        (markJobFailed st1 jid "S3 delete failed", some "S3 delete failed")
      else
        let archiveKey := "archives/" ++ username ++ "/" ++ archiveCandidateName mf
        let st2 : EngineState :=
          { st1 with files := (mapAtId st1.files mf.id (fun m =>
              { m with status := "archived", s3Key := some archiveKey, archivedAt := some st.now })) }
        ({ st2 with jobs := (mapJobAtId st2.jobs jid (fun j =>
            { j with jobStatus := "completed", progress := 100, completedAt := some st.now })) },
         none)

/-- MediaFileService.archive_file (backend/api/services.py lines 558-618).
Returns the updated state and, on failure, the message of the raised
exception.  Precondition failures happen before the job row is created and
leave the state untouched; step failures after job creation mark the job
failed and re-raise. -/
def archiveFile (plan : Option UserPlan) (env : S3ArchiveEnv) (username : String)
    (st : EngineState) (mf : MediaFile) : EngineState × Option String :=
  if mf.status ≠ "uploaded" then
    (st, some "File must be uploaded before archiving")
  else
    match plan with
    | none =>
      -- S3Service.check_rate_limits raises when no active plan exists
      (st, some "Active hibernation plan required")
    | some p => archiveFileGo p env username st mf

/-- A Glacier restore speed tier, GLACIER_RESTORE_TIERS in
backend/api/constants.py. -/
inductive RestoreTier where
  | expedited
  | standard
  | bulk
  deriving Repr, DecidableEq

/-- The tier name string stored on the File Record. -/
def tierName : RestoreTier → String
  | .expedited => "Expedited"
  | .standard => "Standard"
  | .bulk => "Bulk"

/-- RESTORE_TIME_ESTIMATES (backend/api/constants.py lines 42-46), in tenths
of hours: Expedited 0.1 h, Standard 4 h, Bulk 8 h. -/
def tierTenthHours : RestoreTier → Nat
  | .expedited => 1
  | .standard => 40
  | .bulk => 80

/-- Modelled from the spec: S3Service.restore_file is absent from the source
tree (backend/api/services.py defines S3Service without it; only its caller
MediaFileService.restore_file at lines 620-629 and the sweep
sync_restore_status in backend/api/tasks.py are present).  Per the spec
restore algorithm it creates a Lifecycle Job of kind restore in the
in_progress state, stamps estimated_completion with the current time plus
the tier estimate, and sets the File Record to restoring with that tier. -/
def s3RestoreFile (st : EngineState) (mf : MediaFile) (tier : RestoreTier) :
    EngineState × Nat :=
  let jid := st.nextJobId
  let eta := st.now + tierTenthHours tier
  let job : ArchiveJob :=
    { id := jid, userId := mf.userId, fileId := mf.id, jobType := "restore",
      jobStatus := "in_progress", progress := 0, errorMessage := none,
      estimatedCompletion := some eta, completedAt := none }
  let st1 : EngineState :=
    { st with jobs := st.jobs ++ [job], nextJobId := jid + 1 }
  ({ st1 with files := (mapAtId st1.files mf.id (fun m =>
      { m with status := "restoring", restoreTier := tierName tier })) },
   jid)

/-- MediaFileService.restore_file (backend/api/services.py lines 620-629):
the archived-status check and the rate-limit gate (which for restore only
requires an active plan), then delegation to the S3 restore. -/
def restoreFileOp (plan : Option UserPlan) (st : EngineState) (mf : MediaFile)
    (tier : RestoreTier) : EngineState × Option String :=
  if mf.status ≠ "archived" then
    (st, some "File is not archived")
  else
    match plan with
    | none => (st, some "Active hibernation plan required")
    | some _ => ((s3RestoreFile st mf tier).1, none)

/-- The restore jobs the sweep selects (backend/api/tasks.py lines 367-370):
kind restore, still in progress, with a stamped ETA that has passed. -/
def duePred (t : Nat) (j : ArchiveJob) : Bool :=
  j.jobType == "restore" && j.jobStatus == "in_progress" &&
    (match j.estimatedCompletion with
     | some e => decide (e ≤ t)
     | none => false)

def dueRestoreJobs (st : EngineState) : List ArchiveJob :=
  st.jobs.filter (duePred st.now)

/-- Set the status of one file. -/
def setFileStatus (st : EngineState) (fid : Nat) (s : String) : EngineState :=
  { st with files := (mapAtId st.files fid (fun m => { m with status := s })) }

/-- Mark one job completed at the current time. -/
def completeJobAt (st : EngineState) (jid : Nat) : EngineState :=
  { st with jobs := (mapJobAtId st.jobs jid (fun j =>
      { j with jobStatus := "completed", progress := 100, completedAt := some st.now })) }

/-- One iteration of the sweep loop (backend/api/tasks.py lines 375-387):
if the job target file is still restoring, mark it restored, complete the
job, count it, and remember the owner for cache invalidation. -/
def syncOne (acc : EngineState × Nat × List Nat) (j : ArchiveJob) :
    EngineState × Nat × List Nat :=
  match findFile acc.1.files j.fileId with
  | some m =>
    if m.status = "restoring" then
      (completeJobAt (setFileStatus acc.1 j.fileId "restored") j.id,
       acc.2.1 + 1,
       if j.userId ∈ acc.2.2 then acc.2.2 else acc.2.2 ++ [j.userId])
    else acc
  | none => acc

/-- sync_restore_status (backend/api/tasks.py lines 359-397): advance files
from restoring to restored when the job ETA has passed, then bump the cache
version once per affected user.  Returns the number of files moved. -/
def syncRestoreStatus (st : EngineState) : EngineState × Nat :=
  let r := (dueRestoreJobs st).foldl syncOne (st, 0, [])
  (r.2.2.foldl (fun s u => bumpUserCache s u) r.1, r.2.1)

/-- The characters sanitize_filename (backend/api/utils.py lines 76-88)
replaces with an underscore. -/
def dangerousChars : List Char :=
  ['/', '\\', ':', '*', '?', '"', '<', '>', '|']

/-- Split a character list into stem and extension, as os.path.splitext does
on a plain file name: the extension starts at the last dot, unless the
characters before it are all dots. -/
def splitExtChars (cs : List Char) : List Char × List Char :=
  let rev := cs.reverse
  let tailRev := rev.takeWhile (fun c => c ≠ '.')
  if tailRev.length = rev.length then (cs, [])
  else
    let base := (rev.drop (tailRev.length + 1)).reverse
    if base.all (fun c => c = '.') then (cs, [])
    else (base, '.' :: tailRev.reverse)

/-- sanitize_filename (backend/api/utils.py lines 76-88): replace dangerous
characters with underscores, then cap the length at 255 keeping the
extension. -/
def sanitizeFilename (s : String) : String :=
  let replaced := s.toList.map (fun c => if dangerousChars.contains c then '_' else c)
  if replaced.length > 255 then
    let se := splitExtChars replaced
    String.mk (se.1.take (255 - se.2.length) ++ se.2)
  else
    String.mk replaced

/-- Whether a name contains a path separator (os.path.basename(name) differs
from name exactly when it does). -/
def hasSlashChar (s : String) : Bool :=
  s.toList.contains '/'

/-- MAX_FILE_SIZE from the Django settings (5 GB), used by
validate_file_size in backend/api/upload_error_handling.py. -/
def maxFileSizeBytes : Nat := 5 * 1024 * 1024 * 1024

/-- FREE_TIER_LIMIT from the Django settings (15 GB), used by
validate_storage_limit in backend/api/upload_error_handling.py. -/
def freeTierLimitBytes : Nat := 15 * 1024 * 1024 * 1024

/-- The live free-tier usage aggregate: total size of the non-deleted files
of a user (the Sum aggregate in MediaFileService.create_media_file). -/
def userLiveUsage (st : EngineState) (uid : Nat) : Nat :=
  ((st.files.filter (fun m => decide (m.userId = uid) && !m.isDeleted)).map
    (fun m => m.fileSize)).sum

/-- An upload request as create_media_file sees it. -/
structure UploadFile where
  name : String
  size : Nat
  contentType : String
  checksum : String
  deriving Repr, DecidableEq

/-- The outcome of create_media_file: a created record, a short-circuited
duplicate, or one of the structured upload errors of
backend/api/upload_error_handling.py.  The quota error carries the
StorageLimitError detail fields, including remaining_space. -/
inductive UploadOutcome where
  | created (m : MediaFile)
  | duplicate (m : MediaFile)
  | sizeErr (fileSize maxSize : Nat)
  | quotaErr (currentUsage limit additionalSize remainingSpace : Nat)
  | valueErr (msg : String)
  deriving Repr, DecidableEq

/-- The path-based duplicate check of _check_for_duplicate: only runs for a
truthy relative path, and matches on owner, path and original filename. -/
def pathDuplicate (st : EngineState) (uid : Nat) (rel : Option String)
    (rawName : String) : Option MediaFile :=
  match rel with
  | none => none
  | some r =>
    if r = "" then none
    else st.files.find? (fun m => decide (m.userId = uid) &&
      decide (m.relativePath = some r) &&
      decide (m.originalFilename = rawName) && !m.isDeleted)

/-- MediaFileService._check_for_duplicate (backend/api/services.py lines
525-556): a checksum match on the same path short-circuits; a checksum match
on another path falls through to the path-based check. -/
def checkDuplicate (st : EngineState) (uid : Nat) (checksum : String)
    (rel : Option String) (rawName : String) : Option MediaFile :=
  match st.files.find? (fun m => decide (m.userId = uid) &&
      decide (m.checksum = checksum) && !m.isDeleted) with
  | some ex =>
    if ex.relativePath = rel then some ex
    else pathDuplicate st uid rel rawName
  | none => pathDuplicate st uid rel rawName

/-- The tail of create_media_file after validation and the storage gate:
duplicate suppression, S3 upload, then record creation in status uploaded.
The generated unique file name is abstracted by the uuid argument. -/
def createMediaFileGo (uuidStr : String) (uploadOk : Bool) (st : EngineState)
    (uid : Nat) (f : UploadFile) (rel : Option String) :
    EngineState × UploadOutcome :=
  match checkDuplicate st uid f.checksum rel f.name with
  | some ex => (st, .duplicate ex)
  | none =>
    if ¬ uploadOk then (st, .valueErr "S3 upload failed")
    else
      let mf : MediaFile :=
        { id := st.nextFileId, userId := uid,
          filename := uuidStr ++ "_" ++ sanitizeFilename f.name,
          originalFilename := sanitizeFilename f.name, fileSize := f.size,
          fileType := f.contentType, s3Key := some ("uploads/" ++ uuidStr),
          status := "uploaded", checksum := f.checksum,
          glacierArchiveId := none, restoreTier := "Standard",
          isDeleted := false, deletedAt := none, relativePath := rel,
          archivedAt := none }
      ({ st with files := st.files ++ [mf], nextFileId := st.nextFileId + 1 },
       .created mf)

/-- MediaFileService.create_media_file (backend/api/services.py lines
470-523): validate the file (_validate_file with validate_file_size), then
enforce the free-tier limit via validate_storage_limit for a user with no
plan (or the plan ceiling otherwise), then duplicate-check, upload, and
create the record in status uploaded. -/
def createMediaFile (plan : Option UserPlan) (uuidStr : String)
    (uploadOk : Bool) (st : EngineState) (uid : Nat) (f : UploadFile)
    (rel : Option String) : EngineState × UploadOutcome :=
  if f.name = "" then (st, .valueErr "File name is required")
  else if f.size = 0 then (st, .valueErr "File size must be greater than 0")
  else if f.size > maxFileSizeBytes then (st, .sizeErr f.size maxFileSizeBytes)
  else if hasSlashChar f.name then
    (st, .valueErr "Invalid file path - path traversal not allowed")
  else if f.name.length > 255 then
    (st, .valueErr "Filename too long (max 255 characters)")
  else
    match plan with
    | none =>
      if userLiveUsage st uid + f.size > freeTierLimitBytes then
        (st, .quotaErr (userLiveUsage st uid) freeTierLimitBytes f.size
          (freeTierLimitBytes - userLiveUsage st uid))
      else createMediaFileGo uuidStr uploadOk st uid f rel
    | some p =>
      if ¬ (p.storageUsedBytes + f.size ≤ p.storageLimitBytes) then
        (st, .valueErr "Storage limit exceeded")
      else createMediaFileGo uuidStr uploadOk st uid f rel

/-- One file entry of the worker-format get_presigned_urls request. -/
structure PresignedFileInfo where
  filename : String
  fileType : String
  fileSize : Nat
  relativePath : String
  deriving Repr, DecidableEq

/-- The record-creation step of MediaFileViewSet.get_presigned_urls
(backend/api/views/file_views.py lines 334-381): build the unique name and
object key, then create the File Record in status uploading. -/
def createUploadingRecord (uuidStr username : String) (st : EngineState)
    (uid : Nat) (info : PresignedFileInfo) : EngineState × MediaFile :=
  let uniqueFilename := uuidStr ++ "_" ++ sanitizeFilename info.filename
  let s3k :=
    if info.relativePath ≠ "" then
      "uploads/" ++ username ++ "/" ++ info.relativePath ++ "/" ++ uniqueFilename
    else
      "uploads/" ++ username ++ "/" ++ uniqueFilename
  let mf : MediaFile :=
    { id := st.nextFileId, userId := uid, filename := uniqueFilename,
      originalFilename := info.filename, fileSize := info.fileSize,
      fileType := info.fileType, s3Key := some s3k, status := "uploading",
      checksum := "", glacierArchiveId := none, restoreTier := "Standard",
      isDeleted := false, deletedAt := none,
      relativePath := some info.relativePath, archivedAt := none }
  ({ st with files := st.files ++ [mf], nextFileId := st.nextFileId + 1 }, mf)

/-- MediaFileViewSet.complete_upload_batch (backend/api/views/file_views.py
lines 450-491): for a positive completed_files count, lower the
files-in-flight counter to max(0, current - completed), move every
non-deleted uploading record of the user to uploaded, and invalidate the
user cache.  Returns the new counter and the number of updated rows. -/
def completeUploadBatch (st : EngineState) (uid : Nat)
    (completedFiles : Nat) : EngineState × Nat × Nat :=
  if 0 < completedFiles then
    let current := getCount st.inFlight uid
    let newCount := current - completedFiles
    let updatedCount := (st.files.filter (fun m => decide (m.userId = uid) &&
      decide (m.status = "uploading") && !m.isDeleted)).length
    let st1 : EngineState :=
      { st with
        inFlight := setCount st.inFlight uid newCount,
        files := st.files.map (fun m =>
          if m.userId = uid ∧ m.status = "uploading" ∧ m.isDeleted = false then
            { m with status := "uploaded" }
          else m) }
    (bumpUserCache st1 uid, newCount, updatedCount)
  else
    (st, getCount st.inFlight uid, 0)

/-- The characters after the first underscore, if any. -/
def afterFirstUnderscore : List Char → Option (List Char)
  | [] => none
  | c :: rest => if c = '_' then some rest else afterFirstUnderscore rest

/-- unique_filename.split(sep, 1)[1] when an underscore is present, else the
name itself, as complete_multipart_upload derives the original name. -/
def originalFromUnique (s : String) : String :=
  match afterFirstUnderscore s.toList with
  | some rest => String.mk rest
  | none => s

/-- A complete_multipart_upload request body. -/
structure MultipartReq where
  uploadId : String
  s3Key : String
  uniqueFilename : String
  parts : List (Nat × String)
  fileSize : Nat
  contentType : String
  relativePath : String
  deriving Repr, DecidableEq

/-- MediaFileViewSet.complete_multipart_upload (backend/api/views/
file_views.py lines 493-537): after the required-field check and the S3
completion call, unconditionally create a fresh File Record in status
uploaded; there is no lookup of an existing record for the same session. -/
def completeMultipartUpload (s3Ok : Bool) (st : EngineState) (uid : Nat)
    (req : MultipartReq) : EngineState × Option MediaFile :=
  if req.uploadId = "" ∨ req.s3Key = "" ∨ req.uniqueFilename = "" ∨
      req.parts = [] then
    (st, none)
  else if ¬ s3Ok then (st, none)
  else
    let mf : MediaFile :=
      { id := st.nextFileId, userId := uid, filename := req.uniqueFilename,
        originalFilename := sanitizeFilename (originalFromUnique req.uniqueFilename),
        fileSize := req.fileSize, fileType := req.contentType,
        s3Key := some req.s3Key, status := "uploaded", checksum := "",
        glacierArchiveId := none, restoreTier := "Standard",
        isDeleted := false, deletedAt := none,
        relativePath := some req.relativePath, archivedAt := none }
    ({ st with files := st.files ++ [mf], nextFileId := st.nextFileId + 1 },
     some mf)

/-- A concrete archived File Record used by witnesses. -/
def mfArchivedW : MediaFile :=
  { id := 1, userId := 7, filename := "f", originalFilename := "f",
    fileSize := 10, fileType := "text/plain", s3Key := some "archives/u/f",
    status := "archived", checksum := "c", glacierArchiveId := none,
    restoreTier := "Standard", isDeleted := false, deletedAt := none,
    relativePath := none, archivedAt := some 3 }

/-- A concrete engine state holding only mfArchivedW, used by witnesses. -/
def stArchivedW : EngineState :=
  { files := [mfArchivedW], jobs := [], nextFileId := 2, nextJobId := 5,
    cacheVersions := [], inFlight := [], now := 100 }

/-- A concrete roomy hibernation plan used by witnesses. -/
def planW : UserPlan :=
  { storageUsedBytes := 0, storageLimitBytes := 1000 }

/-- A concrete uploaded File Record used by witnesses. -/
def mfUploadedW : MediaFile :=
  { id := 1, userId := 7, filename := "f", originalFilename := "f",
    fileSize := 10, fileType := "text/plain", s3Key := some "uploads/u/f",
    status := "uploaded", checksum := "c", glacierArchiveId := none,
    restoreTier := "Standard", isDeleted := false, deletedAt := none,
    relativePath := none, archivedAt := none }

/-- A concrete engine state holding only mfUploadedW, used by witnesses. -/
def stUploadedW : EngineState :=
  { files := [mfUploadedW], jobs := [], nextFileId := 2, nextJobId := 5,
    cacheVersions := [], inFlight := [], now := 100 }

/-- The candidate File Records of a bulk operation: the requested ids scoped
to the calling user and excluding soft-deleted rows (the common
MediaFile.objects.filter(id__in=..., user=..., is_deleted=False) queryset of
bulk_delete, bulk_archive and bulk_restore). -/
def ownedLive (st : EngineState) (uid : Nat) (fileIds : List Nat) :
    List MediaFile :=
  st.files.filter (fun m => fileIds.contains m.id &&
    (decide (m.userId = uid) && !m.isDeleted))

/-- Whether a requested id matches an owned, non-deleted File Record. -/
def liveMatchPred (st : EngineState) (uid : Nat) (i : Nat) : Bool :=
  st.files.any (fun m => decide (m.id = i) &&
    (decide (m.userId = uid) && !m.isDeleted))

/-- The number of requested ids that belong to another user, are already
soft-deleted, or do not exist: the skipped part of a bulk batch. -/
def skippedCount (st : EngineState) (uid : Nat) (fileIds : List Nat) : Nat :=
  fileIds.countP (fun i => !(liveMatchPred st uid i))

/-- The summary of the bulk archive and bulk restore endpoints:
total_requested, the count of succeeded items, and the failed items with
their reasons. -/
structure BulkResp where
  totalRequested : Nat
  succeededCount : Nat
  failedFiles : List (Nat × String)
  deriving Repr, DecidableEq

/-- One iteration of the bulk_archive loop (backend/api/views/file_views.py
lines 910-917): re-check the snapshot status, then run the archive service
call, recording the id as succeeded or failed. -/
def bulkArchiveStep (plan : Option UserPlan) (env : S3ArchiveEnv)
    (username : String) (acc : EngineState × List Nat × List (Nat × String))
    (mf : MediaFile) : EngineState × List Nat × List (Nat × String) :=
  if mf.status ≠ "uploaded" then
    (acc.1, acc.2.1, acc.2.2 ++ [(mf.id, "File must be uploaded before archiving")])
  else
    let r := archiveFile plan env username acc.1 mf
    match r.2 with
    | none => (r.1, acc.2.1 ++ [mf.id], acc.2.2)
    | some e => (r.1, acc.2.1, acc.2.2 ++ [(mf.id, e)])

/-- MediaFileViewSet.bulk_archive (backend/api/views/file_views.py lines
894-927).  Returns none for an empty id list (the 400 response).  The
endpoint performs no cache invalidation. -/
def bulkArchive (plan : Option UserPlan) (env : S3ArchiveEnv)
    (username : String) (st : EngineState) (uid : Nat) (fileIds : List Nat) :
    EngineState × Option BulkResp :=
  if fileIds = [] then (st, none)
  else
    let files := ownedLive st uid fileIds
    let r := files.foldl (bulkArchiveStep plan env username) (st, [], [])
    (r.1, some { totalRequested := fileIds.length,
                 succeededCount := r.2.1.length, failedFiles := r.2.2 })

/-- One iteration of the bulk_restore loop (backend/api/views/file_views.py
lines 1034-1041). -/
def bulkRestoreStep (plan : Option UserPlan) (tier : RestoreTier)
    (acc : EngineState × List Nat × List (Nat × String)) (mf : MediaFile) :
    EngineState × List Nat × List (Nat × String) :=
  if mf.status ≠ "archived" then
    (acc.1, acc.2.1, acc.2.2 ++ [(mf.id, "File is not archived")])
  else
    let r := restoreFileOp plan acc.1 mf tier
    match r.2 with
    | none => (r.1, acc.2.1 ++ [mf.id], acc.2.2)
    | some e => (r.1, acc.2.1, acc.2.2 ++ [(mf.id, e)])

/-- MediaFileViewSet.bulk_restore (backend/api/views/file_views.py lines
1018-1052).  Returns none for an empty id list.  The endpoint performs no
cache invalidation. -/
def bulkRestore (plan : Option UserPlan) (tier : RestoreTier)
    (st : EngineState) (uid : Nat) (fileIds : List Nat) :
    EngineState × Option BulkResp :=
  if fileIds = [] then (st, none)
  else
    let files := ownedLive st uid fileIds
    let r := files.foldl (bulkRestoreStep plan tier) (st, [], [])
    (r.1, some { totalRequested := fileIds.length,
                 succeededCount := r.2.1.length, failedFiles := r.2.2 })

/-- Soft-delete every file whose id is listed (the bulk
update(is_deleted=True, deleted_at=now) of the delete paths). -/
def markDeletedAll (st : EngineState) (ids : List Nat) : EngineState :=
  { st with files := st.files.map (fun m =>
      if ids.contains m.id then
        { m with isDeleted := true, deletedAt := some st.now }
      else m) }

/-- Soft-delete a single file (the per-record fallback save). -/
def markDeletedOne (st : EngineState) (fid : Nat) : EngineState :=
  { st with files := (mapAtId st.files fid (fun m =>
      { m with isDeleted := true, deletedAt := some st.now })) }

/-- The database step of the bulk_delete endpoint: one bulk update marking
all loaded rows deleted (whose row count becomes successfully_deleted), or
the per-record fallback when the bulk update fails. -/
def viewDeleteDbStep (dbBulkOk : Bool) (perSaveFailIds : List Nat)
    (st : EngineState) (files : List MediaFile) :
    EngineState × Nat × List (Nat × String) :=
  if dbBulkOk then
    (markDeletedAll st (files.map (fun m => m.id)), files.length,
     ([] : List (Nat × String)))
  else
    files.foldl (fun acc m =>
      if perSaveFailIds.contains m.id then
        (acc.1, acc.2.1, acc.2.2 ++ [(m.id, "Database update failed")])
      else
        (markDeletedOne acc.1 m.id, acc.2.1 + 1, acc.2.2))
      (st, 0, [])

/-- The summary of the bulk_delete endpoint. -/
structure DeleteResp where
  totalRequested : Nat
  successfullyDeleted : Nat
  failedDeletions : List (Nat × String)
  awsDeletions : Nat
  deriving Repr, DecidableEq

/-- MediaFileViewSet.bulk_delete (backend/api/views/file_views.py lines
558-697).  Returns none for an empty or over-1000 id list (the 400
responses).  The S3 step of the source calls s3_service.bulk_delete_files,
an attribute S3Service does not define (its method is batch_delete_files),
so that call raises AttributeError, is caught and logged, and aws_deletions
stays 0; the database update then runs over all loaded files regardless.
dbBulkOk models whether the bulk update succeeds; on failure the per-record
fallback runs, failing for the ids in perSaveFailIds.  One cache
invalidation is emitted at the end of the non-empty path. -/
def bulkDeleteView (dbBulkOk : Bool) (perSaveFailIds : List Nat)
    (st : EngineState) (uid : Nat) (fileIds : List Nat) :
    EngineState × Option DeleteResp :=
  if fileIds = [] then (st, none)
  else if 1000 < fileIds.length then (st, none)
  else
    let files := ownedLive st uid fileIds
    if files = [] then
      (st, some { totalRequested := fileIds.length, successfullyDeleted := 0,
                  failedDeletions := [], awsDeletions := 0 })
    else
      let r := viewDeleteDbStep dbBulkOk perSaveFailIds st files
      (bumpUserCache r.1 uid,
       some { totalRequested := fileIds.length, successfullyDeleted := r.2.1,
              failedDeletions := r.2.2, awsDeletions := 0 })

/-- The object-storage outcomes of the background bulk delete task: the
batch call either raises (none) or returns a list of per-key errors; on the
raise the per-key fallback runs, failing for keys in singleFailKeys. -/
structure TaskDeleteEnv where
  batchOutcome : Option (List String)
  singleFailKeys : List String
  dbBulkOk : Bool
  singleSaveFailIds : List Nat
  deriving Repr, DecidableEq

/-- A failed item of the background bulk delete: the source appends either
a s3_key-keyed entry (batch response errors) or an id-keyed entry. -/
inductive FailEntry where
  | byKey (key : String) (msg : String)
  | byId (fid : Nat) (msg : String)
  deriving Repr, DecidableEq

/-- The result payload the background bulk delete caches. -/
structure TaskDeleteResult where
  succeeded : List Nat
  failed : List FailEntry
  total : Nat
  deriving Repr, DecidableEq

/-- process_bulk_delete (backend/api/tasks.py lines 17-151): collect keys,
batch-delete from S3 (falling back to per-key deletes when the batch call
raises), delete archival references (delete_glacier_archive only logs and
never fails), then bulk soft-delete ALL loaded rows in the database — the
update is not restricted to rows whose object deletion succeeded — falling
back to per-row saves if the bulk update fails, and finally invalidate the
user cache once.  Batch-job bookkeeping rows are omitted here.
This definition is the object-storage step: the per-key error entries of the
batch response, or the per-key fallback failures when the batch call raised. -/
def taskDeleteFailedS3 (env : TaskDeleteEnv) (files : List MediaFile) :
    List FailEntry :=
  if files.filterMap (fun m => m.s3Key) = [] then []
  else
    match env.batchOutcome with
    | some errKeys => errKeys.map (fun k => FailEntry.byKey k "S3 delete error")
    | none =>
      (files.filter (fun m =>
        match m.s3Key with
        | some k => env.singleFailKeys.contains k
        | none => false)).map
        (fun m => FailEntry.byId m.id "S3 delete failed")

/-- The database step of process_bulk_delete: bulk soft delete of all loaded
rows (all their ids become the succeeded list), falling back to per-row
saves when the bulk update fails. -/
def taskDeleteDbStep (env : TaskDeleteEnv) (st : EngineState)
    (files : List MediaFile) : EngineState × List Nat × List FailEntry :=
  if env.dbBulkOk then
    (markDeletedAll st (files.map (fun m => m.id)),
     files.map (fun m => m.id), ([] : List FailEntry))
  else
    files.foldl (fun acc m =>
      if env.singleSaveFailIds.contains m.id then
        (acc.1, acc.2.1, acc.2.2 ++ [FailEntry.byId m.id "Database update failed"])
      else
        (markDeletedOne acc.1 m.id, acc.2.1 ++ [m.id], acc.2.2))
      (st, [], [])

def processBulkDelete (env : TaskDeleteEnv) (st : EngineState) (uid : Nat)
    (fileIds : List Nat) : EngineState × TaskDeleteResult :=
  let files := ownedLive st uid fileIds
  let r := taskDeleteDbStep env st files
  (bumpUserCache r.1 uid,
   { succeeded := r.2.1, failed := taskDeleteFailedS3 env files ++ r.2.2,
     total := files.length })

/-- A concrete empty engine state used by witnesses. -/
def stEmptyW : EngineState :=
  { files := [], jobs := [], nextFileId := 10, nextJobId := 0,
    cacheVersions := [], inFlight := [], now := 0 }

/-- A concrete finished multipart session used by witnesses. -/
def reqW : MultipartReq :=
  { uploadId := "up1", s3Key := "uploads/u/k", uniqueFilename := "ab_cd",
    parts := [(1, "e1")], fileSize := 5, contentType := "text/plain",
    relativePath := "" }

/-- A concrete non-deleted uploaded record of 14.5 GB used by witnesses. -/
def mfUsageW : MediaFile :=
  { id := 3, userId := 7, filename := "old", originalFilename := "old",
    fileSize := 15569256448, fileType := "video/mp4",
    s3Key := some "uploads/u/old", status := "uploaded", checksum := "h1",
    glacierArchiveId := none, restoreTier := "Standard", isDeleted := false,
    deletedAt := none, relativePath := none, archivedAt := none }

/-- A concrete state of a free-tier user at 14.5 GB of live usage. -/
def stQuotaW : EngineState :=
  { files := [mfUsageW], jobs := [], nextFileId := 4, nextJobId := 1,
    cacheVersions := [], inFlight := [], now := 0 }

/-- A concrete 1 GB upload used by witnesses. -/
def fGbW : UploadFile :=
  { name := "movie.mkv", size := 1073741824,
    contentType := "video/x-matroska", checksum := "abc" }

/-- A concrete 6 GB upload, above the per-file maximum. -/
def fBigW : UploadFile :=
  { name := "big.bin", size := 6442450944,
    contentType := "application/x-tar", checksum := "zz" }

/-- A concrete uploading-status record of user 7 used by witnesses. -/
def mfUploadingW : MediaFile :=
  { id := 9, userId := 7, filename := "n", originalFilename := "n",
    fileSize := 4, fileType := "text/plain", s3Key := some "uploads/u/n",
    status := "uploading", checksum := "", glacierArchiveId := none,
    restoreTier := "Standard", isDeleted := false, deletedAt := none,
    relativePath := some "", archivedAt := none }

/-- A concrete state with one uploading record and five files in flight. -/
def stInflightW : EngineState :=
  { files := [mfUploadingW], jobs := [], nextFileId := 10, nextJobId := 0,
    cacheVersions := [], inFlight := [(7, 5)], now := 0 }

/-- A concrete backend environment where the batch delete call reports the
only key as failed, used by witnesses. -/
def envC2W : TaskDeleteEnv :=
  { batchOutcome := some ["uploads/u/f"], singleFailKeys := [],
    dbBulkOk := true, singleSaveFailIds := [] }

theorem findFile_map_idpres (fs : List MediaFile) (g : MediaFile → MediaFile)
    (hg : ∀ m, (g m).id = m.id) (fid : Nat) :
    findFile (fs.map g) fid = (findFile fs fid).map g := by
  induction fs with
  | nil => rfl
  | cons a t ih =>
    by_cases h : a.id = fid
    · have h1 : (g a).id = fid := by rw [hg a]; exact h
      unfold findFile
      simp only [List.map_cons]
      rw [List.find?_cons_of_pos _ (by simpa using h1),
        List.find?_cons_of_pos _ (by simpa using h)]
      rfl
    · have h1 : ¬ (g a).id = fid := by rw [hg a]; exact h
      unfold findFile
      simp only [List.map_cons]
      rw [List.find?_cons_of_neg _ (by simpa using h1),
        List.find?_cons_of_neg _ (by simpa using h)]
      exact ih

theorem find?_map_set_self (m : List (Nat × Nat)) (k v : Nat)
    (h : m.any (fun p => p.1 = k) = true) :
    (m.map (fun p => if p.1 = k then (k, v) else p)).find?
      (fun p => p.1 = k) = some (k, v) := by
  induction m with
  | nil => cases h
  | cons a t ih =>
    by_cases ha : a.1 = k
    · simp only [List.map_cons, if_pos ha]
      rw [List.find?_cons_of_pos _ (by simp)]
    · simp only [List.map_cons, if_neg ha]
      rw [List.find?_cons_of_neg _ (by simpa using ha)]
      apply ih
      simpa [List.any_cons, ha] using h

theorem find?_append_single_all_neg (m : List (Nat × Nat)) (k v : Nat)
    (h : m.any (fun p => p.1 = k) = false) :
    (m ++ [(k, v)]).find? (fun p => p.1 = k) = some (k, v) := by
  induction m with
  | nil =>
    rw [List.nil_append, List.find?_cons_of_pos _ (by simp)]
  | cons a t ih =>
    have hh : ¬ a.1 = k := by
      intro hc
      rw [List.any_cons] at h
      simp [hc] at h
    have ht : t.any (fun p => p.1 = k) = false := by
      cases hres : t.any (fun p => p.1 = k)
      · rfl
      · rw [List.any_cons, hres, Bool.or_true] at h
        cases h
    rw [List.cons_append, List.find?_cons_of_neg _ (by simpa using hh)]
    exact ih ht

theorem find?_map_set_ne (m : List (Nat × Nat)) (k v k2 : Nat) (h : k2 ≠ k) :
    (m.map (fun p => if p.1 = k then (k, v) else p)).find?
      (fun p => p.1 = k2) = m.find? (fun p => p.1 = k2) := by
  induction m with
  | nil => rfl
  | cons a t ih =>
    by_cases ha : a.1 = k
    · have hk2 : ¬ ((k, v) : Nat × Nat).1 = k2 := by simpa using (Ne.symm h)
      have ha2 : ¬ a.1 = k2 := by rw [ha]; exact Ne.symm h
      simp only [List.map_cons, if_pos ha]
      rw [List.find?_cons_of_neg _ (by simpa using hk2),
        List.find?_cons_of_neg _ (by simpa using ha2)]
      exact ih
    · simp only [List.map_cons, if_neg ha]
      by_cases hb : a.1 = k2
      · rw [List.find?_cons_of_pos _ (by simpa using hb),
          List.find?_cons_of_pos _ (by simpa using hb)]
      · rw [List.find?_cons_of_neg _ (by simpa using hb),
          List.find?_cons_of_neg _ (by simpa using hb)]
        exact ih

theorem find?_append_single_ne (m : List (Nat × Nat)) (k v k2 : Nat)
    (h : k2 ≠ k) :
    (m ++ [(k, v)]).find? (fun p => p.1 = k2) =
      m.find? (fun p => p.1 = k2) := by
  induction m with
  | nil =>
    rw [List.nil_append, List.find?_cons_of_neg _ (by simpa using Ne.symm h)]
  | cons a t ih =>
    by_cases hb : a.1 = k2
    · rw [List.cons_append, List.find?_cons_of_pos _ (by simpa using hb),
        List.find?_cons_of_pos _ (by simpa using hb)]
    · rw [List.cons_append, List.find?_cons_of_neg _ (by simpa using hb),
        List.find?_cons_of_neg _ (by simpa using hb)]
      exact ih

theorem getCount_setCount_self (m : List (Nat × Nat)) (k v : Nat) :
    getCount (setCount m k v) k = v := by
  unfold setCount getCount
  by_cases h : m.any (fun p => p.1 = k) = true
  · rw [if_pos h, find?_map_set_self m k v h]
  · rw [if_neg h, find?_append_single_all_neg m k v (Bool.eq_false_iff.mpr h)]

theorem getCount_setCount_ne (m : List (Nat × Nat)) (k v k2 : Nat)
    (h : k2 ≠ k) :
    getCount (setCount m k v) k2 = getCount m k2 := by
  unfold setCount getCount
  by_cases hany : m.any (fun p => p.1 = k) = true
  · rw [if_pos hany, find?_map_set_ne m k v k2 h]
  · rw [if_neg hany, find?_append_single_ne m k v k2 h]

theorem cacheVersionOf_bump_self (st : EngineState) (uid : Nat) :
    cacheVersionOf (bumpUserCache st uid) uid = cacheVersionOf st uid + 1 :=
  getCount_setCount_self _ _ _

theorem cacheVersionOf_bump_ne (st : EngineState) (uid uid2 : Nat)
    (h : uid2 ≠ uid) :
    cacheVersionOf (bumpUserCache st uid) uid2 = cacheVersionOf st uid2 :=
  getCount_setCount_ne _ _ _ _ h

theorem findFile_mapAtId_self (fs : List MediaFile) (fid : Nat)
    (g : MediaFile → MediaFile) (hg : ∀ m, (g m).id = m.id) :
    findFile (mapAtId fs fid g) fid = (findFile fs fid).map g := by
  induction fs with
  | nil => rfl
  | cons a t ih =>
    by_cases h : a.id = fid
    · have h1 : (g a).id = fid := by rw [hg a]; exact h
      unfold mapAtId findFile
      simp only [List.map_cons, if_pos h]
      rw [List.find?_cons_of_pos _ (by simpa using h1),
        List.find?_cons_of_pos _ (by simpa using h)]
      rfl
    · unfold mapAtId findFile
      simp only [List.map_cons, if_neg h]
      rw [List.find?_cons_of_neg _ (by simpa using h),
        List.find?_cons_of_neg _ (by simpa using h)]
      exact ih

theorem findFile_mapAtId_ne (fs : List MediaFile) (fid : Nat)
    (g : MediaFile → MediaFile) (hg : ∀ m, (g m).id = m.id)
    (fid2 : Nat) (h : fid2 ≠ fid) :
    findFile (mapAtId fs fid g) fid2 = findFile fs fid2 := by
  induction fs with
  | nil => rfl
  | cons a t ih =>
    by_cases ha : a.id = fid
    · have hb : ¬ a.id = fid2 := fun hc => h (hc ▸ ha ▸ rfl)
      have hb2 : ¬ (g a).id = fid2 := by rw [hg a]; exact hb
      unfold mapAtId findFile
      simp only [List.map_cons, if_pos ha]
      rw [List.find?_cons_of_neg _ (by simpa using hb2),
        List.find?_cons_of_neg _ (by simpa using hb)]
      exact ih
    · unfold mapAtId findFile
      simp only [List.map_cons, if_neg ha]
      by_cases hb : a.id = fid2
      · rw [List.find?_cons_of_pos _ (by simpa using hb),
          List.find?_cons_of_pos _ (by simpa using hb)]
      · rw [List.find?_cons_of_neg _ (by simpa using hb),
          List.find?_cons_of_neg _ (by simpa using hb)]
        exact ih

theorem findJob_mapJobAtId_self (js : List ArchiveJob) (jid : Nat)
    (g : ArchiveJob → ArchiveJob) (hg : ∀ j, (g j).id = j.id) :
    findJob (mapJobAtId js jid g) jid = (findJob js jid).map g := by
  induction js with
  | nil => rfl
  | cons a t ih =>
    by_cases h : a.id = jid
    · have h1 : (g a).id = jid := by rw [hg a]; exact h
      unfold mapJobAtId findJob
      simp only [List.map_cons, if_pos h]
      rw [List.find?_cons_of_pos _ (by simpa using h1),
        List.find?_cons_of_pos _ (by simpa using h)]
      rfl
    · unfold mapJobAtId findJob
      simp only [List.map_cons, if_neg h]
      rw [List.find?_cons_of_neg _ (by simpa using h),
        List.find?_cons_of_neg _ (by simpa using h)]
      exact ih

theorem findJob_mapJobAtId_ne (js : List ArchiveJob) (jid : Nat)
    (g : ArchiveJob → ArchiveJob) (hg : ∀ j, (g j).id = j.id)
    (jid2 : Nat) (h : jid2 ≠ jid) :
    findJob (mapJobAtId js jid g) jid2 = findJob js jid2 := by
  induction js with
  | nil => rfl
  | cons a t ih =>
    by_cases ha : a.id = jid
    · have hb : ¬ a.id = jid2 := fun hc => h (hc ▸ ha ▸ rfl)
      have hb2 : ¬ (g a).id = jid2 := by rw [hg a]; exact hb
      unfold mapJobAtId findJob
      simp only [List.map_cons, if_pos ha]
      rw [List.find?_cons_of_neg _ (by simpa using hb2),
        List.find?_cons_of_neg _ (by simpa using hb)]
      exact ih
    · unfold mapJobAtId findJob
      simp only [List.map_cons, if_neg ha]
      by_cases hb : a.id = jid2
      · rw [List.find?_cons_of_pos _ (by simpa using hb),
          List.find?_cons_of_pos _ (by simpa using hb)]
      · rw [List.find?_cons_of_neg _ (by simpa using hb),
          List.find?_cons_of_neg _ (by simpa using hb)]
        exact ih

theorem findJob_append_fresh (js : List ArchiveJob) (j : ArchiveJob)
    (h : ∀ x ∈ js, x.id ≠ j.id) :
    findJob (js ++ [j]) j.id = some j := by
  induction js with
  | nil =>
    unfold findJob
    rw [List.nil_append, List.find?_cons_of_pos _ (by simp)]
  | cons a t ih =>
    have ha : a.id ≠ j.id := h a (by simp)
    unfold findJob
    rw [List.cons_append, List.find?_cons_of_neg _ (by simpa using ha)]
    exact ih (fun x hx => h x (by simp [hx]))

theorem findFile_of_mem (fs : List MediaFile) (mf : MediaFile)
    (hnd : (fs.map (fun m => m.id)).Nodup) (hmem : mf ∈ fs) :
    findFile fs mf.id = some mf := by
  induction fs with
  | nil => cases hmem
  | cons a t ih =>
    rcases List.mem_cons.mp hmem with h | h
    · subst h
      unfold findFile
      rw [List.find?_cons_of_pos _ (by simp)]
    · have hne : a.id ≠ mf.id := by
        intro he
        have hin : mf.id ∈ t.map (fun m => m.id) := List.mem_map_of_mem _ h
        exact (List.nodup_cons.mp (by simpa using hnd)).1 (he ▸ hin)
      unfold findFile
      rw [List.find?_cons_of_neg _ (by simpa using hne)]
      exact ih (List.nodup_cons.mp (by simpa using hnd)).2 h

theorem statusOf_setFileStatus_self (st : EngineState) (fid : Nat) (s : String) :
    statusOf (setFileStatus st fid s) fid = (statusOf st fid).map (fun _ => s) := by
  unfold statusOf setFileStatus
  rw [show ({ st with files := (mapAtId st.files fid (fun m => { m with status := s })) } :
      EngineState).files = mapAtId st.files fid (fun m => { m with status := s }) from rfl]
  rw [findFile_mapAtId_self st.files fid (fun m => { m with status := s }) (fun m => rfl)]
  cases findFile st.files fid <;> rfl

theorem statusOf_setFileStatus_ne (st : EngineState) (fid : Nat) (s : String)
    (fid2 : Nat) (h : fid2 ≠ fid) :
    statusOf (setFileStatus st fid s) fid2 = statusOf st fid2 := by
  unfold statusOf setFileStatus
  rw [show ({ st with files := (mapAtId st.files fid (fun m => { m with status := s })) } :
      EngineState).files = mapAtId st.files fid (fun m => { m with status := s }) from rfl]
  rw [findFile_mapAtId_ne st.files fid (fun m => { m with status := s }) (fun m => rfl) fid2 h]

theorem statusOf_completeJobAt (st : EngineState) (jid fid : Nat) :
    statusOf (completeJobAt st jid) fid = statusOf st fid := rfl

theorem jobStatusOf_setFileStatus (st : EngineState) (fid : Nat) (s : String)
    (jid : Nat) :
    jobStatusOf (setFileStatus st fid s) jid = jobStatusOf st jid := rfl

theorem jobStatusOf_completeJobAt_self (st : EngineState) (jid : Nat) :
    jobStatusOf (completeJobAt st jid) jid =
      (jobStatusOf st jid).map (fun _ => "completed") := by
  unfold jobStatusOf completeJobAt
  rw [show ({ st with jobs := (mapJobAtId st.jobs jid (fun j =>
      { j with jobStatus := "completed", progress := 100, completedAt := some st.now })) } :
      EngineState).jobs = mapJobAtId st.jobs jid (fun j =>
      { j with jobStatus := "completed", progress := 100, completedAt := some st.now }) from rfl]
  rw [findJob_mapJobAtId_self st.jobs jid (fun j =>
      { j with jobStatus := "completed", progress := 100, completedAt := some st.now }) (fun j => rfl)]
  cases findJob st.jobs jid <;> rfl

theorem jobStatusOf_completeJobAt_ne (st : EngineState) (jid jid2 : Nat)
    (h : jid2 ≠ jid) :
    jobStatusOf (completeJobAt st jid) jid2 = jobStatusOf st jid2 := by
  unfold jobStatusOf completeJobAt
  rw [show ({ st with jobs := (mapJobAtId st.jobs jid (fun j =>
      { j with jobStatus := "completed", progress := 100, completedAt := some st.now })) } :
      EngineState).jobs = mapJobAtId st.jobs jid (fun j =>
      { j with jobStatus := "completed", progress := 100, completedAt := some st.now }) from rfl]
  rw [findJob_mapJobAtId_ne st.jobs jid (fun j =>
      { j with jobStatus := "completed", progress := 100, completedAt := some st.now }) (fun j => rfl) jid2 h]

theorem syncOne_statusOf_ne (acc : EngineState × Nat × List Nat) (j : ArchiveJob)
    (fid : Nat) (h : j.fileId ≠ fid) :
    statusOf (syncOne acc j).1 fid = statusOf acc.1 fid := by
  unfold syncOne
  cases hf : findFile acc.1.files j.fileId with
  | none => rfl
  | some m =>
    by_cases hs : m.status = "restoring"
    · simp only [hf, if_pos hs]
      rw [statusOf_completeJobAt, statusOf_setFileStatus_ne _ _ _ _ (Ne.symm h)]
    · simp only [hf, if_neg hs]

theorem syncOne_jobStatusOf_ne (acc : EngineState × Nat × List Nat)
    (j : ArchiveJob) (jid : Nat) (h : j.id ≠ jid) :
    jobStatusOf (syncOne acc j).1 jid = jobStatusOf acc.1 jid := by
  unfold syncOne
  cases hf : findFile acc.1.files j.fileId with
  | none => rfl
  | some m =>
    by_cases hs : m.status = "restoring"
    · simp only [hf, if_pos hs]
      rw [jobStatusOf_completeJobAt_ne _ _ _ (Ne.symm h), jobStatusOf_setFileStatus]
    · simp only [hf, if_neg hs]

theorem syncFold_statusOf (l : List ArchiveJob) (acc : EngineState × Nat × List Nat)
    (fid : Nat) (h : ∀ j ∈ l, j.fileId ≠ fid) :
    statusOf (l.foldl syncOne acc).1 fid = statusOf acc.1 fid := by
  induction l generalizing acc with
  | nil => rfl
  | cons a t ih =>
    rw [List.foldl_cons, ih _ (fun j hj => h j (by simp [hj]))]
    exact syncOne_statusOf_ne _ _ _ (h a (by simp))

theorem syncFold_jobStatusOf (l : List ArchiveJob) (acc : EngineState × Nat × List Nat)
    (jid : Nat) (h : ∀ j ∈ l, j.id ≠ jid) :
    jobStatusOf (l.foldl syncOne acc).1 jid = jobStatusOf acc.1 jid := by
  induction l generalizing acc with
  | nil => rfl
  | cons a t ih =>
    rw [List.foldl_cons, ih _ (fun j hj => h j (by simp [hj]))]
    exact syncOne_jobStatusOf_ne _ _ _ (h a (by simp))

theorem bumpFold_files (us : List Nat) (st : EngineState) :
    (us.foldl (fun s u => bumpUserCache s u) st).files = st.files := by
  induction us generalizing st with
  | nil => rfl
  | cons a t ih =>
    rw [List.foldl_cons, ih]
    rfl

theorem bumpFold_jobs (us : List Nat) (st : EngineState) :
    (us.foldl (fun s u => bumpUserCache s u) st).jobs = st.jobs := by
  induction us generalizing st with
  | nil => rfl
  | cons a t ih =>
    rw [List.foldl_cons, ih]
    rfl

theorem statusOf_sync (st : EngineState) (fid : Nat) :
    statusOf (syncRestoreStatus st).1 fid =
      statusOf ((dueRestoreJobs st).foldl syncOne (st, 0, [])).1 fid := by
  unfold syncRestoreStatus statusOf
  rw [bumpFold_files]

theorem jobStatusOf_sync (st : EngineState) (jid : Nat) :
    jobStatusOf (syncRestoreStatus st).1 jid =
      jobStatusOf ((dueRestoreJobs st).foldl syncOne (st, 0, [])).1 jid := by
  unfold syncRestoreStatus jobStatusOf
  rw [bumpFold_jobs]

/-- C4 — archive is only valid from the uploaded status.
For every file, the archive operation succeeds only when the current status
is uploaded, and calling it on a file in any other status raises the
state-conflict error and returns the state completely unchanged. -/
theorem archive_only_from_uploaded (plan : Option UserPlan) (env : S3ArchiveEnv)
    (username : String) (st : EngineState) (mf : MediaFile)
    (h : mf.status ≠ "uploaded") :
    archiveFile plan env username st mf =
      (st, some "File must be uploaded before archiving") := by
  simp [archiveFile, h]

/-- Witness for archive_only_from_uploaded: a concrete archived file is
rejected and the state is unchanged. -/
theorem archive_only_from_uploaded_witness :
    archiveFile none { copyOk := true, deleteOk := true } "alice"
      { files := [], jobs := [], nextFileId := 0, nextJobId := 0,
        cacheVersions := [], inFlight := [], now := 0 }
      { id := 1, userId := 1, filename := "a", originalFilename := "a",
        fileSize := 10, fileType := "text/plain", s3Key := some "k",
        status := "archived", checksum := "c", glacierArchiveId := none,
        restoreTier := "Standard", isDeleted := false, deletedAt := none,
        relativePath := none, archivedAt := none } =
      ({ files := [], jobs := [], nextFileId := 0, nextJobId := 0,
         cacheVersions := [], inFlight := [], now := 0 },
       some "File must be uploaded before archiving") :=
  archive_only_from_uploaded none _ "alice" _ _ (by decide)

/-- C1 — restore creates a restore job with the tier ETA and sets the file
to restoring; a sweep run before the ETA leaves the record restoring, and a
sweep run at or after the ETA moves it to restored and completes the job.
Hypotheses: the state is well formed, the file is registered with status
archived, the user holds an active hibernation plan (the rate-limit gate in
MediaFileService.restore_file requires one), and the file has no other
non-terminal restore job (the spec invariant of at most one non-terminal job
of a given kind per file). -/
theorem restore_sets_restoring_then_sweep_completes (pl : UserPlan)
    (st : EngineState) (mf : MediaFile) (tier : RestoreTier)
    (hwf : WFState st) (hmem : mf ∈ st.files) (harch : mf.status = "archived")
    (hnojob : ∀ j ∈ st.jobs,
      ¬(j.jobType = "restore" ∧ j.jobStatus = "in_progress" ∧ j.fileId = mf.id)) :
    (restoreFileOp (some pl) st mf tier).2 = none ∧
    ((findJob (restoreFileOp (some pl) st mf tier).1.jobs st.nextJobId).map
        (fun j => (j.jobType, j.jobStatus, j.fileId, j.estimatedCompletion)) =
      some ("restore", "in_progress", mf.id,
        some (st.now + tierTenthHours tier))) ∧
    statusOf (restoreFileOp (some pl) st mf tier).1 mf.id = some "restoring" ∧
    (∀ t, t < st.now + tierTenthHours tier →
      statusOf (syncRestoreStatus
        { (restoreFileOp (some pl) st mf tier).1 with now := t }).1 mf.id =
        some "restoring") ∧
    (∀ t, st.now + tierTenthHours tier ≤ t →
      statusOf (syncRestoreStatus
        { (restoreFileOp (some pl) st mf tier).1 with now := t }).1 mf.id =
        some "restored" ∧
      jobStatusOf (syncRestoreStatus
        { (restoreFileOp (some pl) st mf tier).1 with now := t }).1 st.nextJobId =
        some "completed") := by
  have hnotneq : ¬ (mf.status ≠ "archived") := by simp [harch]
  have hres : restoreFileOp (some pl) st mf tier =
      ((s3RestoreFile st mf tier).1, none) := by
    unfold restoreFileOp
    rw [if_neg hnotneq]
  set eta := st.now + tierTenthHours tier with heta
  set J : ArchiveJob :=
    { id := st.nextJobId, userId := mf.userId, fileId := mf.id,
      jobType := "restore", jobStatus := "in_progress", progress := 0,
      errorMessage := none, estimatedCompletion := some eta,
      completedAt := none } with hJ
  have hRjobs : (s3RestoreFile st mf tier).1.jobs = st.jobs ++ [J] := rfl
  have hRfiles : (s3RestoreFile st mf tier).1.files =
      mapAtId st.files mf.id
        (fun m => { m with status := "restoring", restoreTier := tierName tier }) := rfl
  have hfind : findFile st.files mf.id = some mf :=
    findFile_of_mem _ _ hwf.1 hmem
  have hstatR : statusOf (s3RestoreFile st mf tier).1 mf.id = some "restoring" := by
    unfold statusOf
    rw [hRfiles, findFile_mapAtId_self st.files mf.id
      (fun m => { m with status := "restoring", restoreTier := tierName tier })
      (fun m => rfl), hfind]
    rfl
  have hfreshJ : ∀ x ∈ st.jobs, x.id ≠ J.id := by
    intro x hx hcon
    have hlt := hwf.2.2.1 x hx
    have hid : J.id = st.nextJobId := rfl
    rw [hid] at hcon
    omega
  have hjobR : findJob (s3RestoreFile st mf tier).1.jobs st.nextJobId = some J := by
    rw [hRjobs]
    exact findJob_append_fresh st.jobs J hfreshJ
  have hdue : ∀ t : Nat,
      dueRestoreJobs { (s3RestoreFile st mf tier).1 with now := t } =
        (st.jobs.filter (duePred t)) ++ ([J].filter (duePred t)) := by
    intro t
    unfold dueRestoreJobs
    rw [show ({ (s3RestoreFile st mf tier).1 with now := t } : EngineState).jobs =
        (s3RestoreFile st mf tier).1.jobs from rfl]
    rw [hRjobs, List.filter_append]
  have holdj : ∀ t : Nat, ∀ j ∈ st.jobs.filter (duePred t),
      j.fileId ≠ mf.id ∧ j.id ≠ st.nextJobId := by
    intro t j hj
    have hjm := (List.mem_filter.mp hj).1
    have hjp := (List.mem_filter.mp hj).2
    have hts : j.jobType = "restore" ∧ j.jobStatus = "in_progress" := by
      unfold duePred at hjp
      rw [Bool.and_eq_true, Bool.and_eq_true] at hjp
      exact ⟨by simpa using hjp.1.1, by simpa using hjp.1.2⟩
    constructor
    · intro hcon
      exact hnojob j hjm ⟨hts.1, hts.2, hcon⟩
    · have hlt := hwf.2.2.1 j hjm
      omega
  have hbefore : ∀ t, t < eta →
      statusOf (syncRestoreStatus
        { (s3RestoreFile st mf tier).1 with now := t }).1 mf.id =
        some "restoring" := by
    intro t ht
    rw [statusOf_sync, hdue t]
    have hJfilter : [J].filter (duePred t) = [] := by
      have hpf : duePred t J = false := by
        unfold duePred
        rw [hJ]
        simp only []
        simp [Nat.not_le.mpr ht]
      simp [List.filter, hpf]
    rw [hJfilter, List.append_nil]
    rw [syncFold_statusOf _ _ _ (fun j hj => (holdj t j hj).1)]
    exact hstatR
  have hafter : ∀ t, eta ≤ t →
      statusOf (syncRestoreStatus
        { (s3RestoreFile st mf tier).1 with now := t }).1 mf.id =
        some "restored" ∧
      jobStatusOf (syncRestoreStatus
        { (s3RestoreFile st mf tier).1 with now := t }).1 st.nextJobId =
        some "completed" := by
    intro t ht
    have hJfilter : [J].filter (duePred t) = [J] := by
      have hpt : duePred t J = true := by
        unfold duePred
        rw [hJ]
        simp [ht]
      simp [List.filter, hpt]
    set accMid := List.foldl syncOne
      ({ (s3RestoreFile st mf tier).1 with now := t }, 0, ([] : List Nat))
      (st.jobs.filter (duePred t)) with hacc
    have hstatMid : statusOf accMid.1 mf.id = some "restoring" := by
      rw [hacc, syncFold_statusOf _ _ _ (fun j hj => (holdj t j hj).1)]
      exact hstatR
    have hjobMid : jobStatusOf accMid.1 st.nextJobId = some "in_progress" := by
      rw [hacc, syncFold_jobStatusOf _ _ _ (fun j hj => (holdj t j hj).2)]
      show (findJob ({ (s3RestoreFile st mf tier).1 with now := t} :
        EngineState).jobs st.nextJobId).map (fun j => j.jobStatus) = some "in_progress"
      rw [show ({ (s3RestoreFile st mf tier).1 with now := t } : EngineState).jobs =
          (s3RestoreFile st mf tier).1.jobs from rfl]
      rw [hjobR]
      rfl
    obtain ⟨m, hm, hms⟩ : ∃ m, findFile accMid.1.files mf.id = some m ∧
        m.status = "restoring" := by
      unfold statusOf at hstatMid
      cases hf : findFile accMid.1.files mf.id with
      | none => rw [hf] at hstatMid; cases hstatMid
      | some m =>
        rw [hf] at hstatMid
        exact ⟨m, rfl, by simpa using hstatMid⟩
    have hJfid : J.fileId = mf.id := rfl
    have hJid : J.id = st.nextJobId := rfl
    have hfoldfull : (dueRestoreJobs
        { (s3RestoreFile st mf tier).1 with now := t }).foldl syncOne
        ({ (s3RestoreFile st mf tier).1 with now := t }, 0, ([] : List Nat)) =
        syncOne accMid J := by
      rw [hdue t, hJfilter, List.foldl_append, List.foldl_cons, List.foldl_nil, hacc]
    have hsync1 : syncOne accMid J =
        (completeJobAt (setFileStatus accMid.1 mf.id "restored") J.id,
         accMid.2.1 + 1,
         if J.userId ∈ accMid.2.2 then accMid.2.2 else accMid.2.2 ++ [J.userId]) := by
      unfold syncOne
      rw [hJfid, hm]
      exact if_pos hms
    constructor
    · rw [statusOf_sync, hfoldfull, hsync1]
      show statusOf (completeJobAt (setFileStatus accMid.1 mf.id "restored") J.id)
        mf.id = some "restored"
      rw [statusOf_completeJobAt, statusOf_setFileStatus_self, hstatMid]
      rfl
    · rw [jobStatusOf_sync, hfoldfull, hsync1]
      show jobStatusOf (completeJobAt (setFileStatus accMid.1 mf.id "restored") J.id)
        st.nextJobId = some "completed"
      rw [← hJid, jobStatusOf_completeJobAt_self, jobStatusOf_setFileStatus,
        hJid, hjobMid]
      rfl
  refine ⟨by rw [hres], ?_, ?_, ?_, ?_⟩
  · rw [hres]
    show (findJob (s3RestoreFile st mf tier).1.jobs st.nextJobId).map
      (fun j => (j.jobType, j.jobStatus, j.fileId, j.estimatedCompletion)) =
      some ("restore", "in_progress", mf.id, some eta)
    rw [hjobR]
    rfl
  · rw [hres]
    exact hstatR
  · intro t ht
    rw [hres]
    exact hbefore t ht
  · intro t ht
    rw [hres]
    exact hafter t ht

/-- Witness for restore_sets_restoring_then_sweep_completes at a concrete
archived file with the Standard tier: the hypotheses hold and the file ends
up restoring, then restored after the ETA. -/
theorem restore_sets_restoring_then_sweep_completes_witness :
    (WFState stArchivedW ∧ mfArchivedW ∈ stArchivedW.files ∧
      mfArchivedW.status = "archived" ∧
      (∀ j ∈ stArchivedW.jobs,
        ¬(j.jobType = "restore" ∧ j.jobStatus = "in_progress" ∧
          j.fileId = mfArchivedW.id))) ∧
    statusOf (restoreFileOp (some planW) stArchivedW mfArchivedW
      RestoreTier.standard).1 mfArchivedW.id = some "restoring" ∧
    statusOf (syncRestoreStatus
      { (restoreFileOp (some planW) stArchivedW mfArchivedW
          RestoreTier.standard).1 with now := 140 }).1 mfArchivedW.id =
      some "restored" := by
  have h := restore_sets_restoring_then_sweep_completes planW stArchivedW
    mfArchivedW RestoreTier.standard (by decide) (by decide) (by decide)
    (by simp [stArchivedW])
  exact ⟨⟨by decide, by decide, by decide, by simp [stArchivedW]⟩,
    h.2.2.1, (h.2.2.2.2 140 (by decide)).1⟩

/-- C3 counterexample — the claim states that a failed archive step sets the
File Record status to failed; in the code the status update only happens on
the success path, so after a failed copy the record is still uploaded (and
provably not failed), while the job is marked failed. -/
theorem archive_failure_keeps_uploaded_cex :
    statusOf (archiveFile (some planW) { copyOk := false, deleteOk := true }
      "u" stUploadedW mfUploadedW).1 mfUploadedW.id = some "uploaded" ∧
    ¬ (statusOf (archiveFile (some planW) { copyOk := false, deleteOk := true }
      "u" stUploadedW mfUploadedW).1 mfUploadedW.id = some "failed") ∧
    jobStatusOf (archiveFile (some planW) { copyOk := false, deleteOk := true }
      "u" stUploadedW mfUploadedW).1 stUploadedW.nextJobId = some "failed" := by
  decide

/-- C3 (amended) — when an archive step (the copy to the archival tier or
the warm-copy delete) fails, the Lifecycle Job is marked failed with the
causing error recorded, and the File Record status is left unchanged at
uploaded; it is not set to failed. -/
theorem archive_step_failure_marks_job_failed_file_stays_uploaded
    (p : UserPlan) (env : S3ArchiveEnv) (username : String)
    (st : EngineState) (mf : MediaFile)
    (hwf : WFState st) (hmem : mf ∈ st.files) (hup : mf.status = "uploaded")
    (hq : p.storageUsedBytes + mf.fileSize ≤ p.storageLimitBytes)
    (hcand : archiveCandidateName mf ≠ "")
    (hfail : ¬(env.copyOk = true ∧ env.deleteOk = true)) :
    ∃ msg,
      (archiveFile (some p) env username st mf).2 = some msg ∧
      findJob (archiveFile (some p) env username st mf).1.jobs st.nextJobId =
        some { id := st.nextJobId, userId := mf.userId, fileId := mf.id,
               jobType := "archive", jobStatus := "failed", progress := 0,
               errorMessage := some msg, estimatedCompletion := none,
               completedAt := none } ∧
      statusOf (archiveFile (some p) env username st mf).1 mf.id =
        some "uploaded" := by
  have hnn : ¬(mf.status ≠ "uploaded") := by simp [hup]
  have hred0 : archiveFile (some p) env username st mf =
      archiveFileGo p env username st mf := by
    unfold archiveFile
    rw [if_neg hnn]
  set job0 : ArchiveJob :=
    { id := st.nextJobId, userId := mf.userId, fileId := mf.id,
      jobType := "archive", jobStatus := "in_progress", progress := 0,
      errorMessage := none, estimatedCompletion := none,
      completedAt := none } with hjob0
  set st1 : EngineState :=
    { st with jobs := st.jobs ++ [job0], nextJobId := st.nextJobId + 1 } with hst1
  have hfresh : ∀ x ∈ st.jobs, x.id ≠ job0.id := by
    intro x hx hcon
    have hlt := hwf.2.2.1 x hx
    have hid : job0.id = st.nextJobId := rfl
    rw [hid] at hcon
    omega
  have hfj : ∀ msg : String,
      findJob (markJobFailed st1 st.nextJobId msg).jobs st.nextJobId =
        some { id := st.nextJobId, userId := mf.userId, fileId := mf.id,
               jobType := "archive", jobStatus := "failed", progress := 0,
               errorMessage := some msg, estimatedCompletion := none,
               completedAt := none } := by
    intro msg
    show findJob (mapJobAtId st1.jobs st.nextJobId
      (fun j => { j with jobStatus := "failed", errorMessage := some msg }))
      st.nextJobId = _
    rw [findJob_mapJobAtId_self st1.jobs st.nextJobId
      (fun j => { j with jobStatus := "failed", errorMessage := some msg })
      (fun j => rfl)]
    rw [show st1.jobs = st.jobs ++ [job0] from rfl]
    rw [show st.nextJobId = job0.id from rfl]
    rw [findJob_append_fresh st.jobs job0 hfresh]
    rfl
  have hsf : ∀ msg : String,
      statusOf (markJobFailed st1 st.nextJobId msg) mf.id = some "uploaded" := by
    intro msg
    show (findFile st.files mf.id).map (fun m => m.status) = some "uploaded"
    rw [findFile_of_mem _ _ hwf.1 hmem]
    simp [hup]
  by_cases hc : env.copyOk = true
  · have hd : ¬ env.deleteOk = true := fun hd => hfail ⟨hc, hd⟩
    have hred : archiveFileGo p env username st mf =
        (markJobFailed st1 st.nextJobId "S3 delete failed",
         some "S3 delete failed") := by
      unfold archiveFileGo
      rw [if_neg (not_not_intro hq), if_neg hcand, if_neg (not_not_intro hc),
        if_pos hd]
    refine ⟨"S3 delete failed", ?_, ?_, ?_⟩ <;> rw [hred0, hred]
    · exact hfj _
    · exact hsf _
  · have hred : archiveFileGo p env username st mf =
        (markJobFailed st1 st.nextJobId "S3 copy failed",
         some "S3 copy failed") := by
      unfold archiveFileGo
      rw [if_neg (not_not_intro hq), if_neg hcand, if_pos hc]
    refine ⟨"S3 copy failed", ?_, ?_, ?_⟩ <;> rw [hred0, hred]
    · exact hfj _
    · exact hsf _

/-- Witness for archive_step_failure_marks_job_failed_file_stays_uploaded at
a concrete uploaded file whose warm-copy delete fails. -/
theorem archive_step_failure_witness :
    (WFState stUploadedW ∧ mfUploadedW ∈ stUploadedW.files ∧
      mfUploadedW.status = "uploaded" ∧
      planW.storageUsedBytes + mfUploadedW.fileSize ≤ planW.storageLimitBytes ∧
      archiveCandidateName mfUploadedW ≠ "" ∧
      ¬((true : Bool) = true ∧ (false : Bool) = true)) ∧
    (∃ msg,
      (archiveFile (some planW) { copyOk := true, deleteOk := false }
        "u" stUploadedW mfUploadedW).2 = some msg ∧
      findJob (archiveFile (some planW) { copyOk := true, deleteOk := false }
        "u" stUploadedW mfUploadedW).1.jobs stUploadedW.nextJobId =
        some { id := stUploadedW.nextJobId, userId := mfUploadedW.userId,
               fileId := mfUploadedW.id, jobType := "archive",
               jobStatus := "failed", progress := 0,
               errorMessage := some msg, estimatedCompletion := none,
               completedAt := none } ∧
      statusOf (archiveFile (some planW) { copyOk := true, deleteOk := false }
        "u" stUploadedW mfUploadedW).1 mfUploadedW.id = some "uploaded") :=
  ⟨⟨by decide, by decide, by decide, by decide, by decide, by decide⟩,
   archive_step_failure_marks_job_failed_file_stays_uploaded planW
     { copyOk := true, deleteOk := false } "u" stUploadedW mfUploadedW
     (by decide) (by decide) (by decide) (by decide) (by decide) (by decide)⟩

/-- C7 counterexample — the claim states every upload that would push usage
past the free-tier limit is rejected with the structured quota error; for a
6 GB file (above the 5 GB per-file maximum) at 14.5 GB usage, usage + size
exceeds the limit yet the rejection is the file-size error, not the quota
error, so no remaining-space detail is carried. -/
theorem quota_error_claim_cex :
    freeTierLimitBytes < userLiveUsage stQuotaW 7 + fBigW.size ∧
    createMediaFile none "u1" true stQuotaW 7 fBigW none =
      (stQuotaW, UploadOutcome.sizeErr fBigW.size maxFileSizeBytes) ∧
    (createMediaFile none "u1" true stQuotaW 7 fBigW none).2 ≠
      UploadOutcome.quotaErr (userLiveUsage stQuotaW 7) freeTierLimitBytes
        fBigW.size (freeTierLimitBytes - userLiveUsage stQuotaW 7) := by
  decide

/-- C7 (amended) — for a free-tier user, an upload of a file of valid size
(positive and within the 5 GB per-file maximum) and valid name whose size
would push live usage past the free-tier limit is rejected with the
structured quota error carrying remaining space max(0, limit - usage), and
the state is returned unchanged, so no uploaded File Record is created. -/
theorem quota_exceeded_rejects_upload (uuidStr : String) (uploadOk : Bool)
    (st : EngineState) (uid : Nat) (f : UploadFile) (rel : Option String)
    (hname : ¬ f.name = "") (hsz : ¬ f.size = 0)
    (hmax : f.size ≤ maxFileSizeBytes)
    (hslash : hasSlashChar f.name = false) (hlen : f.name.length ≤ 255)
    (hover : freeTierLimitBytes < userLiveUsage st uid + f.size) :
    createMediaFile none uuidStr uploadOk st uid f rel =
      (st, UploadOutcome.quotaErr (userLiveUsage st uid) freeTierLimitBytes
        f.size (freeTierLimitBytes - userLiveUsage st uid)) ∧
    ((freeTierLimitBytes - userLiveUsage st uid : Nat) : Int) =
      max 0 ((freeTierLimitBytes : Int) - (userLiveUsage st uid : Int)) := by
  constructor
  · unfold createMediaFile
    rw [if_neg hname, if_neg hsz,
      if_neg (by omega : ¬ f.size > maxFileSizeBytes),
      if_neg (by simp [hslash]),
      if_neg (by omega : ¬ f.name.length > 255)]
    show (if userLiveUsage st uid + f.size > freeTierLimitBytes then
        (st, UploadOutcome.quotaErr (userLiveUsage st uid) freeTierLimitBytes
          f.size (freeTierLimitBytes - userLiveUsage st uid))
      else createMediaFileGo uuidStr uploadOk st uid f rel) = _
    rw [if_pos hover]
  · omega

/-- Witness for quota_exceeded_rejects_upload: a free-tier user at 14.5 GB
uploading a 1 GB file is rejected with the quota error and about 0.5 GB of
remaining space. -/
theorem quota_exceeded_rejects_upload_witness :
    (¬ fGbW.name = "" ∧ ¬ fGbW.size = 0 ∧ fGbW.size ≤ maxFileSizeBytes ∧
      hasSlashChar fGbW.name = false ∧ fGbW.name.length ≤ 255 ∧
      freeTierLimitBytes < userLiveUsage stQuotaW 7 + fGbW.size) ∧
    createMediaFile none "u1" true stQuotaW 7 fGbW none =
      (stQuotaW, UploadOutcome.quotaErr (userLiveUsage stQuotaW 7)
        freeTierLimitBytes fGbW.size
        (freeTierLimitBytes - userLiveUsage stQuotaW 7)) :=
  ⟨⟨by decide, by decide, by decide, by decide, by decide, by decide⟩,
   (quota_exceeded_rejects_upload "u1" true stQuotaW 7 fGbW none
     (by decide) (by decide) (by decide) (by decide) (by decide)
     (by decide)).1⟩

/-- C9 — every File Record that get_presigned_urls creates is stored with
status uploading, which is not a member of the declared status choices
MEDIA_FILE_STATUS_CHOICES; this evaluates the code at the failing input of
the code_bug report. -/
theorem presigned_upload_stores_status_outside_choices
    (uuidStr username : String) (st : EngineState) (uid : Nat)
    (info : PresignedFileInfo) :
    (createUploadingRecord uuidStr username st uid info).2 ∈
      (createUploadingRecord uuidStr username st uid info).1.files ∧
    (createUploadingRecord uuidStr username st uid info).2.status =
      "uploading" ∧
    ¬ (createUploadingRecord uuidStr username st uid info).2.status ∈
      mediaFileStatusChoices := by
  refine ⟨?_, rfl, ?_⟩
  · show _ ∈ st.files ++ [_]
    exact List.mem_append_right _ (List.mem_singleton.mpr rfl)
  · show ¬ "uploading" ∈ mediaFileStatusChoices
    decide

/-- C10 — a batch completion with a positive completed count moves every
non-deleted uploading record of the calling user to uploaded (whatever batch
it belonged to), leaves every other record unchanged, and sets the
files-in-flight counter to max(0, current - completed). -/
theorem complete_upload_batch_effects (st : EngineState) (uid n : Nat)
    (h : 0 < n) :
    (∀ m ∈ st.files,
      (m.userId = uid ∧ m.status = "uploading" ∧ m.isDeleted = false) →
        { m with status := "uploaded" } ∈ (completeUploadBatch st uid n).1.files) ∧
    (∀ m ∈ st.files,
      ¬ (m.userId = uid ∧ m.status = "uploading" ∧ m.isDeleted = false) →
        m ∈ (completeUploadBatch st uid n).1.files) ∧
    ((getCount (completeUploadBatch st uid n).1.inFlight uid : Int) =
      max 0 ((getCount st.inFlight uid : Int) - (n : Int))) := by
  have hred : completeUploadBatch st uid n =
      (bumpUserCache
        { st with
          inFlight := setCount st.inFlight uid (getCount st.inFlight uid - n),
          files := st.files.map (fun m =>
            if m.userId = uid ∧ m.status = "uploading" ∧ m.isDeleted = false then
              { m with status := "uploaded" }
            else m) } uid,
       getCount st.inFlight uid - n,
       (st.files.filter (fun m => decide (m.userId = uid) &&
         decide (m.status = "uploading") && !m.isDeleted)).length) := by
    unfold completeUploadBatch
    rw [if_pos h]
  refine ⟨?_, ?_, ?_⟩
  · intro m hm hc
    rw [hred]
    have hmem := List.mem_map_of_mem (fun m =>
      if m.userId = uid ∧ m.status = "uploading" ∧ m.isDeleted = false then
        { m with status := "uploaded" }
      else m) hm
    simp only [if_pos hc] at hmem
    exact hmem
  · intro m hm hc
    rw [hred]
    have hmem := List.mem_map_of_mem (fun m =>
      if m.userId = uid ∧ m.status = "uploading" ∧ m.isDeleted = false then
        { m with status := "uploaded" }
      else m) hm
    simp only [if_neg hc] at hmem
    exact hmem
  · rw [hred]
    show ((getCount (setCount st.inFlight uid (getCount st.inFlight uid - n))
      uid : Nat) : Int) = _
    rw [getCount_setCount_self]
    omega

/-- Witness for complete_upload_batch_effects: completing 3 files with 5 in
flight moves the uploading record to uploaded and sets the counter to 2. -/
theorem complete_upload_batch_effects_witness :
    ((0 : Nat) < 3) ∧
    { mfUploadingW with status := "uploaded" } ∈
      (completeUploadBatch stInflightW 7 3).1.files ∧
    getCount (completeUploadBatch stInflightW 7 3).1.inFlight 7 = 2 :=
  ⟨by decide,
   (complete_upload_batch_effects stInflightW 7 3 (by decide)).1
     mfUploadingW (by decide) (by decide),
   by decide⟩

/-- C8 counterexample — the claim states a second completion of the same
finished session is a no-op returning the existing File Record; in the code
a second call (whose backend completion succeeds) creates a second record
with the same object key and a different id. -/
theorem complete_multipart_twice_cex :
    (completeMultipartUpload true
      (completeMultipartUpload true stEmptyW 7 reqW).1 7 reqW).1.files.length = 2 ∧
    ((completeMultipartUpload true
      (completeMultipartUpload true stEmptyW 7 reqW).1 7 reqW).1.files.countP
        (fun m => decide (m.s3Key = some "uploads/u/k"))) = 2 ∧
    (completeMultipartUpload true
      (completeMultipartUpload true stEmptyW 7 reqW).1 7 reqW).2 ≠
      (completeMultipartUpload true stEmptyW 7 reqW).2 := by
  decide

/-- C8 (amended) — completing the same multipart session a second time is
not idempotent: when the backend completion call succeeds again, a second
File Record with the same object key and a fresh id is created; the existing
record is never returned. -/
theorem complete_multipart_second_call_creates_duplicate (st : EngineState)
    (uid : Nat) (req : MultipartReq)
    (hok : ¬(req.uploadId = "" ∨ req.s3Key = "" ∨ req.uniqueFilename = "" ∨
      req.parts = [])) :
    ∃ m1 m2,
      (completeMultipartUpload true st uid req).2 = some m1 ∧
      (completeMultipartUpload true
        (completeMultipartUpload true st uid req).1 uid req).2 = some m2 ∧
      m1.id ≠ m2.id ∧ m2.s3Key = m1.s3Key ∧
      (completeMultipartUpload true
        (completeMultipartUpload true st uid req).1 uid req).1.files =
        st.files ++ [m1, m2] := by
  set m1 : MediaFile :=
    { id := st.nextFileId, userId := uid, filename := req.uniqueFilename,
      originalFilename := sanitizeFilename (originalFromUnique req.uniqueFilename),
      fileSize := req.fileSize, fileType := req.contentType,
      s3Key := some req.s3Key, status := "uploaded", checksum := "",
      glacierArchiveId := none, restoreTier := "Standard",
      isDeleted := false, deletedAt := none,
      relativePath := some req.relativePath, archivedAt := none } with hm1
  set st1 : EngineState :=
    { st with files := st.files ++ [m1], nextFileId := st.nextFileId + 1 } with hst1
  have hred1 : completeMultipartUpload true st uid req = (st1, some m1) := by
    unfold completeMultipartUpload
    rw [if_neg hok, if_neg (by simp)]
  set m2 : MediaFile :=
    { id := st1.nextFileId, userId := uid, filename := req.uniqueFilename,
      originalFilename := sanitizeFilename (originalFromUnique req.uniqueFilename),
      fileSize := req.fileSize, fileType := req.contentType,
      s3Key := some req.s3Key, status := "uploaded", checksum := "",
      glacierArchiveId := none, restoreTier := "Standard",
      isDeleted := false, deletedAt := none,
      relativePath := some req.relativePath, archivedAt := none } with hm2
  have hred2 : completeMultipartUpload true st1 uid req =
      ({ st1 with files := st1.files ++ [m2], nextFileId := st1.nextFileId + 1 },
       some m2) := by
    unfold completeMultipartUpload
    rw [if_neg hok, if_neg (by simp)]
  refine ⟨m1, m2, ?_, ?_, ?_, rfl, ?_⟩
  · rw [hred1]
  · rw [hred1]
    exact congrArg Prod.snd hred2
  · show st.nextFileId ≠ st1.nextFileId
    show st.nextFileId ≠ st.nextFileId + 1
    omega
  · rw [hred1]
    have h3 := congrArg (fun x => x.1.files) hred2
    refine Eq.trans h3 ?_
    show (st.files ++ [m1]) ++ [m2] = st.files ++ [m1, m2]
    rw [List.append_assoc]
    rfl

/-- Witness for complete_multipart_second_call_creates_duplicate on a
concrete finished session. -/
theorem complete_multipart_second_call_creates_duplicate_witness :
    (¬(reqW.uploadId = "" ∨ reqW.s3Key = "" ∨ reqW.uniqueFilename = "" ∨
      reqW.parts = [])) ∧
    (∃ m1 m2,
      (completeMultipartUpload true stEmptyW 7 reqW).2 = some m1 ∧
      (completeMultipartUpload true
        (completeMultipartUpload true stEmptyW 7 reqW).1 7 reqW).2 = some m2 ∧
      m1.id ≠ m2.id ∧ m2.s3Key = m1.s3Key ∧
      (completeMultipartUpload true
        (completeMultipartUpload true stEmptyW 7 reqW).1 7 reqW).1.files =
        stEmptyW.files ++ [m1, m2]) :=
  ⟨by decide,
   complete_multipart_second_call_creates_duplicate stEmptyW 7 reqW (by decide)⟩

/-- C2 counterexample — the claim states a file whose backend object
deletion failed is excluded from the database soft-delete; in the background
bulk delete the batch response reports the only key as failed, yet the file
is still marked deleted and even listed as succeeded. -/
theorem task_bulk_delete_backend_failure_still_deleted_cex :
    (processBulkDelete envC2W stUploadedW 7 [1]).2.failed =
      [FailEntry.byKey "uploads/u/f" "S3 delete error"] ∧
    deletedFlagOf (processBulkDelete envC2W stUploadedW 7 [1]).1 1 = some true ∧
    1 ∈ (processBulkDelete envC2W stUploadedW 7 [1]).2.succeeded := by
  decide

/-- C2 (amended) — in the background bulk delete, when the database bulk
update succeeds, every loaded file is marked soft-deleted and reported as
succeeded regardless of whether its object-storage deletion succeeded;
backend failures only add entries to the failed list and never exclude a
file from the database update. -/
theorem task_bulk_delete_marks_all_loaded (env : TaskDeleteEnv)
    (st : EngineState) (uid : Nat) (fileIds : List Nat)
    (hdb : env.dbBulkOk = true) (hwf : WFState st) :
    ∀ mf ∈ ownedLive st uid fileIds,
      deletedFlagOf (processBulkDelete env st uid fileIds).1 mf.id = some true ∧
      mf.id ∈ (processBulkDelete env st uid fileIds).2.succeeded := by
  intro mf hmf
  have hmem : mf ∈ st.files := (List.mem_filter.mp hmf).1
  have hfind : findFile st.files mf.id = some mf :=
    findFile_of_mem _ _ hwf.1 hmem
  have hdbstep : taskDeleteDbStep env st (ownedLive st uid fileIds) =
      (markDeletedAll st ((ownedLive st uid fileIds).map (fun m => m.id)),
       (ownedLive st uid fileIds).map (fun m => m.id),
       ([] : List FailEntry)) := by
    unfold taskDeleteDbStep
    rw [if_pos hdb]
  constructor
  · show deletedFlagOf
      (bumpUserCache (taskDeleteDbStep env st (ownedLive st uid fileIds)).1 uid)
      mf.id = some true
    rw [hdbstep]
    show (findFile (st.files.map (fun m =>
      if ((ownedLive st uid fileIds).map (fun m => m.id)).contains m.id then
        { m with isDeleted := true, deletedAt := some st.now }
      else m)) mf.id).map (fun m => m.isDeleted) = some true
    rw [findFile_map_idpres st.files _ (fun m => by split <;> rfl) mf.id, hfind]
    have hc : ((ownedLive st uid fileIds).map (fun m => m.id)).contains mf.id = true := by
      have hin : mf.id ∈ (ownedLive st uid fileIds).map (fun m => m.id) :=
        List.mem_map_of_mem (fun m => m.id) hmf
      exact List.elem_iff.mpr hin
    show some ((if ((ownedLive st uid fileIds).map (fun m => m.id)).contains mf.id then
        { mf with isDeleted := true, deletedAt := some st.now }
      else mf).isDeleted) = some true
    rw [if_pos hc]
  · show mf.id ∈ (taskDeleteDbStep env st (ownedLive st uid fileIds)).2.1
    rw [hdbstep]
    exact List.mem_map_of_mem (fun m => m.id) hmf

/-- Witness for task_bulk_delete_marks_all_loaded: with the batch response
reporting the only key as failed, the file is still soft-deleted and listed
as succeeded. -/
theorem task_bulk_delete_marks_all_loaded_witness :
    (envC2W.dbBulkOk = true ∧ WFState stUploadedW ∧
      mfUploadedW ∈ ownedLive stUploadedW 7 [1]) ∧
    (deletedFlagOf (processBulkDelete envC2W stUploadedW 7 [1]).1
        mfUploadedW.id = some true ∧
      mfUploadedW.id ∈ (processBulkDelete envC2W stUploadedW 7 [1]).2.succeeded) :=
  ⟨⟨by decide, by decide, by decide⟩,
   task_bulk_delete_marks_all_loaded envC2W stUploadedW 7 [1] (by decide)
     (by decide) mfUploadedW (by decide)⟩

theorem nat_beq_eq_decide (a b : Nat) : (a == b) = decide (a = b) := by
  by_cases h : a = b <;> simp [h]

theorem countP_or_split (l : List MediaFile) (p1 p2 : MediaFile → Bool)
    (hdisj : ∀ m ∈ l, ¬(p1 m = true ∧ p2 m = true)) :
    l.countP (fun m => p1 m || p2 m) = l.countP p1 + l.countP p2 := by
  induction l with
  | nil => rfl
  | cons a t ih =>
    rw [List.countP_cons, List.countP_cons, List.countP_cons,
      ih (fun m hm => hdisj m (List.mem_cons_of_mem _ hm))]
    cases h1 : p1 a <;> cases h2 : p2 a <;> simp [h1, h2] <;>
      first
        | omega
        | exact absurd ⟨h1, h2⟩ (hdisj a (List.mem_cons_self a t))

theorem countP_eq_zero_of_no_id (fs : List MediaFile) (i : Nat)
    (p : MediaFile → Bool) (h : ∀ m ∈ fs, m.id ≠ i) :
    fs.countP (fun m => decide (m.id = i) && p m) = 0 :=
  List.countP_eq_zero.mpr (fun m hm => by simp [h m hm])

theorem countP_unique_id (fs : List MediaFile)
    (hnd : (fs.map (fun m => m.id)).Nodup) (p : MediaFile → Bool) (i : Nat) :
    fs.countP (fun m => decide (m.id = i) && p m) =
      if fs.any (fun m => decide (m.id = i) && p m) then 1 else 0 := by
  induction fs with
  | nil => rfl
  | cons a t ih =>
    have hnd2 : (t.map (fun m => m.id)).Nodup :=
      (List.nodup_cons.mp (by simpa using hnd)).2
    have hha : a.id ∉ t.map (fun m => m.id) :=
      (List.nodup_cons.mp (by simpa using hnd)).1
    rw [List.countP_cons, ih hnd2, List.any_cons]
    by_cases ha : a.id = i
    · have hnot : ∀ m ∈ t, m.id ≠ i := by
        intro m hm he
        exact hha (by rw [ha, ← he]; exact List.mem_map_of_mem _ hm)
      have hanyt : t.any (fun m => decide (m.id = i) && p m) = false :=
        List.any_eq_false.mpr (fun m hm => by simp [hnot m hm])
      rw [hanyt]
      cases hp : (decide (a.id = i) && p a) <;> simp [hp]
    · have hpa : (decide (a.id = i) && p a) = false := by simp [ha]
      rw [hpa]
      simp

theorem countP_contains_eq (fs : List MediaFile) (p : MediaFile → Bool)
    (hnd : (fs.map (fun m => m.id)).Nodup) :
    ∀ ids : List Nat, ids.Nodup →
      fs.countP (fun m => ids.contains m.id && p m) =
        ids.countP (fun i => fs.any (fun m => decide (m.id = i) && p m)) := by
  intro ids hnd2
  induction ids with
  | nil =>
    rw [List.countP_nil]
    exact List.countP_eq_zero.mpr (fun m hm => by simp)
  | cons i rest ih =>
    have h0 : i ∉ rest := (List.nodup_cons.mp hnd2).1
    have h1 : rest.Nodup := (List.nodup_cons.mp hnd2).2
    have hdisj : ∀ m ∈ fs,
        ¬((rest.contains m.id && p m) = true ∧
          (decide (m.id = i) && p m) = true) := by
      intro m _ hcon
      have hmem : m.id ∈ rest := by
        have := hcon.1
        rw [Bool.and_eq_true] at this
        exact List.elem_iff.mp this.1
      have hid : m.id = i := by
        have := hcon.2
        rw [Bool.and_eq_true] at this
        simpa using this.1
      exact h0 (hid ▸ hmem)
    rw [List.countP_cons, ← ih h1, ← countP_unique_id fs hnd p i,
      ← countP_or_split fs _ _ hdisj]
    apply List.countP_congr
    intro m _
    rw [List.contains_cons, nat_beq_eq_decide]
    cases hb : decide (m.id = i) <;> cases hc : rest.contains m.id <;>
      cases hp : p m <;> simp [hb, hc, hp]

/-- How many files a bulk batch loads: the requested count minus the skipped
ids (those of another user, already deleted, or nonexistent). -/
theorem attempted_plus_skipped (st : EngineState) (uid : Nat)
    (fileIds : List Nat) (hnd : fileIds.Nodup)
    (hwfnd : (st.files.map (fun m => m.id)).Nodup) :
    (ownedLive st uid fileIds).length + skippedCount st uid fileIds =
      fileIds.length := by
  have h1 : (ownedLive st uid fileIds).length =
      fileIds.countP (liveMatchPred st uid) := by
    unfold ownedLive liveMatchPred
    rw [← List.countP_eq_length_filter]
    exact countP_contains_eq st.files
      (fun m => decide (m.userId = uid) && !m.isDeleted) hwfnd fileIds hnd
  have h2 := List.length_eq_countP_add_countP (liveMatchPred st uid) fileIds
  have h3 : skippedCount st uid fileIds =
      fileIds.countP (fun i => decide ¬(liveMatchPred st uid i = true)) := by
    unfold skippedCount
    apply List.countP_congr
    intro a _
    cases liveMatchPred st uid a <;> simp
  omega

theorem bulkArchiveStep_count (plan : Option UserPlan) (env : S3ArchiveEnv)
    (username : String) (acc : EngineState × List Nat × List (Nat × String))
    (mf : MediaFile) :
    (bulkArchiveStep plan env username acc mf).2.1.length +
      (bulkArchiveStep plan env username acc mf).2.2.length =
      acc.2.1.length + acc.2.2.length + 1 := by
  unfold bulkArchiveStep
  by_cases h : mf.status ≠ "uploaded"
  · rw [if_pos h]
    simp [List.length_append]
    omega
  · rw [if_neg h]
    cases hr : (archiveFile plan env username acc.1 mf).2 <;>
      simp [hr, List.length_append] <;> omega

theorem archiveFold_count (plan : Option UserPlan) (env : S3ArchiveEnv)
    (username : String) (l : List MediaFile)
    (acc : EngineState × List Nat × List (Nat × String)) :
    (l.foldl (bulkArchiveStep plan env username) acc).2.1.length +
      (l.foldl (bulkArchiveStep plan env username) acc).2.2.length =
      acc.2.1.length + acc.2.2.length + l.length := by
  induction l generalizing acc with
  | nil => rfl
  | cons a t ih =>
    rw [List.foldl_cons]
    rw [ih (bulkArchiveStep plan env username acc a)]
    rw [bulkArchiveStep_count plan env username acc a]
    simp [List.length_cons]
    omega

theorem bulkRestoreStep_count (plan : Option UserPlan) (tier : RestoreTier)
    (acc : EngineState × List Nat × List (Nat × String)) (mf : MediaFile) :
    (bulkRestoreStep plan tier acc mf).2.1.length +
      (bulkRestoreStep plan tier acc mf).2.2.length =
      acc.2.1.length + acc.2.2.length + 1 := by
  unfold bulkRestoreStep
  by_cases h : mf.status ≠ "archived"
  · rw [if_pos h]
    simp [List.length_append]
    omega
  · rw [if_neg h]
    cases hr : (restoreFileOp plan acc.1 mf tier).2 <;>
      simp [hr, List.length_append] <;> omega

theorem restoreFold_count (plan : Option UserPlan) (tier : RestoreTier)
    (l : List MediaFile) (acc : EngineState × List Nat × List (Nat × String)) :
    (l.foldl (bulkRestoreStep plan tier) acc).2.1.length +
      (l.foldl (bulkRestoreStep plan tier) acc).2.2.length =
      acc.2.1.length + acc.2.2.length + l.length := by
  induction l generalizing acc with
  | nil => rfl
  | cons a t ih =>
    rw [List.foldl_cons]
    rw [ih (bulkRestoreStep plan tier acc a)]
    rw [bulkRestoreStep_count plan tier acc a]
    simp [List.length_cons]
    omega

theorem deleteFold_count (perSaveFailIds : List Nat) (l : List MediaFile)
    (acc : EngineState × Nat × List (Nat × String)) :
    (l.foldl (fun acc m =>
      if perSaveFailIds.contains m.id then
        (acc.1, acc.2.1, acc.2.2 ++ [(m.id, "Database update failed")])
      else
        (markDeletedOne acc.1 m.id, acc.2.1 + 1, acc.2.2)) acc).2.1 +
      (l.foldl (fun acc m =>
        if perSaveFailIds.contains m.id then
          (acc.1, acc.2.1, acc.2.2 ++ [(m.id, "Database update failed")])
        else
          (markDeletedOne acc.1 m.id, acc.2.1 + 1, acc.2.2)) acc).2.2.length =
      acc.2.1 + acc.2.2.length + l.length := by
  induction l generalizing acc with
  | nil => rfl
  | cons a t ih =>
    rw [List.foldl_cons, ih]
    by_cases h : perSaveFailIds.contains a.id = true
    · rw [if_pos h]
      simp [List.length_append]
      omega
    · rw [if_neg h]
      simp [List.length_cons]
      omega

/-- C5 (amended) — for every bulk operation (archive, restore, delete) on a
batch of N distinct ids of which K belong to another user, are already
soft-deleted, or do not exist, exactly N - K candidate files are loaded and
the returned summary satisfies succeeded + failed.length = N - K; the
response echoes total_requested = N, from which the skipped count is
derivable, but the K skipped ids themselves are not individually reported
anywhere in the response. -/
theorem bulk_summary_counts (plan : Option UserPlan) (env : S3ArchiveEnv)
    (username : String) (tier : RestoreTier) (dbBulkOk : Bool)
    (perSaveFailIds : List Nat) (st : EngineState) (uid : Nat)
    (fileIds : List Nat) (hnd : fileIds.Nodup) (hwf : WFState st)
    (hne : fileIds ≠ []) (hlen : fileIds.length ≤ 1000) :
    ((ownedLive st uid fileIds).length + skippedCount st uid fileIds =
      fileIds.length) ∧
    (∃ ra, (bulkArchive plan env username st uid fileIds).2 = some ra ∧
      ra.totalRequested = fileIds.length ∧
      ra.succeededCount + ra.failedFiles.length =
        (ownedLive st uid fileIds).length) ∧
    (∃ rr, (bulkRestore plan tier st uid fileIds).2 = some rr ∧
      rr.totalRequested = fileIds.length ∧
      rr.succeededCount + rr.failedFiles.length =
        (ownedLive st uid fileIds).length) ∧
    (∃ rd, (bulkDeleteView dbBulkOk perSaveFailIds st uid fileIds).2 = some rd ∧
      rd.totalRequested = fileIds.length ∧
      rd.successfullyDeleted + rd.failedDeletions.length =
        (ownedLive st uid fileIds).length) := by
  refine ⟨attempted_plus_skipped st uid fileIds hnd hwf.1, ?_, ?_, ?_⟩
  · refine ⟨⟨fileIds.length,
      ((ownedLive st uid fileIds).foldl (bulkArchiveStep plan env username)
        (st, ([] : List Nat), ([] : List (Nat × String)))).2.1.length,
      ((ownedLive st uid fileIds).foldl (bulkArchiveStep plan env username)
        (st, ([] : List Nat), ([] : List (Nat × String)))).2.2⟩, ?_, rfl, ?_⟩
    · unfold bulkArchive
      rw [if_neg hne]
    · have h := archiveFold_count plan env username (ownedLive st uid fileIds)
        (st, ([] : List Nat), ([] : List (Nat × String)))
      simpa using h
  · refine ⟨⟨fileIds.length,
      ((ownedLive st uid fileIds).foldl (bulkRestoreStep plan tier)
        (st, ([] : List Nat), ([] : List (Nat × String)))).2.1.length,
      ((ownedLive st uid fileIds).foldl (bulkRestoreStep plan tier)
        (st, ([] : List Nat), ([] : List (Nat × String)))).2.2⟩, ?_, rfl, ?_⟩
    · unfold bulkRestore
      rw [if_neg hne]
    · have h := restoreFold_count plan tier (ownedLive st uid fileIds)
        (st, ([] : List Nat), ([] : List (Nat × String)))
      simpa using h
  · by_cases hof : ownedLive st uid fileIds = []
    · refine ⟨⟨fileIds.length, 0, [], 0⟩, ?_, rfl, ?_⟩
      · unfold bulkDeleteView
        rw [if_neg hne, if_neg (by omega : ¬ 1000 < fileIds.length),
          if_pos hof]
      · simp [hof]
    · refine ⟨⟨fileIds.length,
        (viewDeleteDbStep dbBulkOk perSaveFailIds st
          (ownedLive st uid fileIds)).2.1,
        (viewDeleteDbStep dbBulkOk perSaveFailIds st
          (ownedLive st uid fileIds)).2.2, 0⟩, ?_, rfl, ?_⟩
      · unfold bulkDeleteView
        rw [if_neg hne, if_neg (by omega : ¬ 1000 < fileIds.length),
          if_neg hof]
      · unfold viewDeleteDbStep
        by_cases hdb : dbBulkOk = true
        · rw [if_pos hdb]
          simp
        · rw [if_neg hdb]
          have h := deleteFold_count perSaveFailIds (ownedLive st uid fileIds)
            (st, (0 : Nat), ([] : List (Nat × String)))
          simpa using h

/-- Witness for bulk_summary_counts: ids [1, 5] where only id 1 is an owned
live file, so one item is attempted and one is skipped, and the archive
summary adds up. -/
theorem bulk_summary_counts_witness :
    (([1, 5] : List Nat).Nodup ∧ WFState stUploadedW ∧
      ([1, 5] : List Nat) ≠ [] ∧ ([1, 5] : List Nat).length ≤ 1000) ∧
    ((ownedLive stUploadedW 7 [1, 5]).length +
      skippedCount stUploadedW 7 [1, 5] = 2) ∧
    (∃ ra, (bulkArchive (some planW) { copyOk := true, deleteOk := true }
      "u" stUploadedW 7 [1, 5]).2 = some ra ∧
      ra.totalRequested = 2 ∧
      ra.succeededCount + ra.failedFiles.length =
        (ownedLive stUploadedW 7 [1, 5]).length) := by
  have h := bulk_summary_counts (some planW)
    { copyOk := true, deleteOk := true } "u" RestoreTier.standard true []
    stUploadedW 7 [1, 5] (by decide) (by decide) (by decide) (by decide)
  exact ⟨⟨by decide, by decide, by decide, by decide⟩, h.1, h.2.1⟩

/-- C5 counterexample — the claim states the K skipped ids are reported back
as not-found/skipped; for ids [1, 5] with id 5 owned by nobody, one id is
skipped yet the archive response is only counts plus an empty failed list,
with no occurrence of the skipped id 5 anywhere. -/
theorem bulk_skipped_ids_unreported_cex :
    skippedCount stUploadedW 7 [1, 5] = 1 ∧
    (bulkArchive (some planW) { copyOk := true, deleteOk := true }
      "u" stUploadedW 7 [1, 5]).2 =
      some { totalRequested := 2, succeededCount := 1, failedFiles := [] } := by
  decide

theorem archiveFile_cacheVersions (plan : Option UserPlan)
    (env : S3ArchiveEnv) (username : String) (st : EngineState)
    (mf : MediaFile) :
    (archiveFile plan env username st mf).1.cacheVersions =
      st.cacheVersions := by
  unfold archiveFile
  split
  · rfl
  · cases plan with
    | none => rfl
    | some p =>
      show (archiveFileGo p env username st mf).1.cacheVersions =
        st.cacheVersions
      unfold archiveFileGo markJobFailed
      split_ifs <;> rfl

theorem restoreFileOp_cacheVersions (plan : Option UserPlan)
    (st : EngineState) (mf : MediaFile) (tier : RestoreTier) :
    (restoreFileOp plan st mf tier).1.cacheVersions = st.cacheVersions := by
  unfold restoreFileOp
  split
  · rfl
  · cases plan with
    | none => rfl
    | some p => rfl

theorem archiveFold_cacheVersions (plan : Option UserPlan)
    (env : S3ArchiveEnv) (username : String) (l : List MediaFile)
    (acc : EngineState × List Nat × List (Nat × String)) :
    ((l.foldl (bulkArchiveStep plan env username) acc).1).cacheVersions =
      acc.1.cacheVersions := by
  induction l generalizing acc with
  | nil => rfl
  | cons a t ih =>
    rw [List.foldl_cons, ih]
    unfold bulkArchiveStep
    split
    · rfl
    · cases hr : (archiveFile plan env username acc.1 a).2 <;>
        simp only [hr] <;>
        exact archiveFile_cacheVersions plan env username acc.1 a

theorem restoreFold_cacheVersions (plan : Option UserPlan)
    (tier : RestoreTier) (l : List MediaFile)
    (acc : EngineState × List Nat × List (Nat × String)) :
    ((l.foldl (bulkRestoreStep plan tier) acc).1).cacheVersions =
      acc.1.cacheVersions := by
  induction l generalizing acc with
  | nil => rfl
  | cons a t ih =>
    rw [List.foldl_cons, ih]
    unfold bulkRestoreStep
    split
    · rfl
    · cases hr : (restoreFileOp plan acc.1 a tier).2 <;>
        simp only [hr] <;>
        exact restoreFileOp_cacheVersions plan acc.1 a tier

theorem viewDeleteFold_cacheVersions (perSaveFailIds : List Nat)
    (l : List MediaFile) (acc : EngineState × Nat × List (Nat × String)) :
    ((l.foldl (fun acc m =>
      if perSaveFailIds.contains m.id then
        (acc.1, acc.2.1, acc.2.2 ++ [(m.id, "Database update failed")])
      else
        (markDeletedOne acc.1 m.id, acc.2.1 + 1, acc.2.2)) acc).1).cacheVersions =
      acc.1.cacheVersions := by
  induction l generalizing acc with
  | nil => rfl
  | cons a t ih =>
    rw [List.foldl_cons, ih]
    split <;> rfl

theorem viewDeleteDbStep_cacheVersions (dbBulkOk : Bool)
    (perSaveFailIds : List Nat) (st : EngineState) (files : List MediaFile) :
    (viewDeleteDbStep dbBulkOk perSaveFailIds st files).1.cacheVersions =
      st.cacheVersions := by
  unfold viewDeleteDbStep
  split
  · rfl
  · exact viewDeleteFold_cacheVersions perSaveFailIds files (st, 0, [])

/-- C6 counterexample — the claim states the cache version strictly
increases after any successful bulk operation; a successful bulk archive of
one file through the endpoint leaves the user cache version unchanged
because bulk_archive performs no cache invalidation. -/
theorem bulk_archive_no_cache_bump_cex :
    (bulkArchive (some planW) { copyOk := true, deleteOk := true } "u"
      stUploadedW 7 [1]).2 =
      some { totalRequested := 1, succeededCount := 1, failedFiles := [] } ∧
    cacheVersionOf (bulkArchive (some planW)
      { copyOk := true, deleteOk := true } "u" stUploadedW 7 [1]).1 7 =
      cacheVersionOf stUploadedW 7 := by
  decide

/-- C6 (amended) — the bulk delete endpoint emits exactly one
cache-invalidation bump for the owning user (the version strictly increases
by one, other users are untouched), but the bulk archive and bulk restore
endpoints leave the cache version store entirely unchanged. -/
theorem bulk_cache_version_effects (plan : Option UserPlan)
    (env : S3ArchiveEnv) (username : String) (tier : RestoreTier)
    (dbBulkOk : Bool) (perSaveFailIds : List Nat) (st : EngineState)
    (uid : Nat) (fileIds : List Nat) (hne : fileIds ≠ [])
    (hlen : fileIds.length ≤ 1000) (hof : ownedLive st uid fileIds ≠ []) :
    (cacheVersionOf (bulkDeleteView dbBulkOk perSaveFailIds st uid
        fileIds).1 uid = cacheVersionOf st uid + 1 ∧
      (∀ u2, u2 ≠ uid →
        cacheVersionOf (bulkDeleteView dbBulkOk perSaveFailIds st uid
          fileIds).1 u2 = cacheVersionOf st u2)) ∧
    (bulkArchive plan env username st uid fileIds).1.cacheVersions =
      st.cacheVersions ∧
    (bulkRestore plan tier st uid fileIds).1.cacheVersions =
      st.cacheVersions := by
  have hdv : (bulkDeleteView dbBulkOk perSaveFailIds st uid fileIds).1 =
      bumpUserCache (viewDeleteDbStep dbBulkOk perSaveFailIds st
        (ownedLive st uid fileIds)).1 uid := by
    unfold bulkDeleteView
    rw [if_neg hne, if_neg (by omega : ¬ 1000 < fileIds.length), if_neg hof]
  refine ⟨⟨?_, ?_⟩, ?_, ?_⟩
  · rw [hdv, cacheVersionOf_bump_self]
    unfold cacheVersionOf
    rw [viewDeleteDbStep_cacheVersions]
  · intro u2 hu2
    rw [hdv, cacheVersionOf_bump_ne _ _ _ hu2]
    unfold cacheVersionOf
    rw [viewDeleteDbStep_cacheVersions]
  · unfold bulkArchive
    rw [if_neg hne]
    exact archiveFold_cacheVersions plan env username
      (ownedLive st uid fileIds) (st, [], [])
  · unfold bulkRestore
    rw [if_neg hne]
    exact restoreFold_cacheVersions plan tier
      (ownedLive st uid fileIds) (st, [], [])

/-- Witness for bulk_cache_version_effects: deleting the only file bumps the
owning user version from 0 to 1 and leaves the archive and restore endpoint
versions unchanged. -/
theorem bulk_cache_version_effects_witness :
    (([1] : List Nat) ≠ [] ∧ ([1] : List Nat).length ≤ 1000 ∧
      ownedLive stUploadedW 7 [1] ≠ []) ∧
    cacheVersionOf (bulkDeleteView true [] stUploadedW 7 [1]).1 7 =
      cacheVersionOf stUploadedW 7 + 1 ∧
    (bulkArchive (some planW) { copyOk := true, deleteOk := true } "u"
      stUploadedW 7 [1]).1.cacheVersions = stUploadedW.cacheVersions := by
  have h := bulk_cache_version_effects (some planW)
    { copyOk := true, deleteOk := true } "u" RestoreTier.standard true []
    stUploadedW 7 [1] (by decide) (by decide) (by decide)
  exact ⟨⟨by decide, by decide, by decide⟩, h.1.1, h.2.1⟩

end GlacierArchival
